import Mathlib

/-!
Sentiment dashboard: the scoring engine and the history store.

A shallow embedding of `src/services/api.js`.

Modelling conventions.

* A JavaScript string is a `List Char` (`Text`).
* A JavaScript number is an exact rational: the arithmetic of the source is
  carried out in `ℚ`, without the rounding error of binary floating point.
  `toFixed(3)` followed by `parseFloat` is `toFixed3`; where the exact value
  is half-way between two thousandths the source may return either of them.
* `String.prototype.toLowerCase` is a parameter `lower : Text → Text` of the
  scorer; `asciiLower` is its value on ASCII text and is used for the
  concrete examples.
* `Math.random()`, the clock and the generated identifiers are explicit
  inputs.
* `localStorage` is the `Store` record; reads and writes never fail, and each
  operation of the service runs to completion before the next one starts.
-/

namespace SentimentDashboard

/-- A JavaScript string, as its list of characters. -/
abbrev Text := List Char

/-- Milliseconds since the epoch, the value behind `new Date().toISOString()`. -/
abbrev Time := Nat

/-! ## String helpers -/

/-- Model of `String.prototype.includes`: `word` occurs in `s` as a contiguous substring. -/
def includes : Text → Text → Bool
  | [], word => word.isEmpty
  | c :: cs, word => word.isPrefixOf (c :: cs) || includes cs word

/-- Lower-casing of ASCII text, the value of `toLowerCase` on ASCII strings. -/
def asciiLower (s : Text) : Text := s.map Char.toLower

/-- The characters matched by `\s` in a regular expression, which are also the
characters removed by `String.prototype.trim`. -/
def isSpace (c : Char) : Bool :=
  let n := c.toNat
  n = 9 || n = 10 || n = 11 || n = 12 || n = 13 || n = 32 || n = 160 || n = 5760 ||
  (8192 ≤ n && n ≤ 8202) || n = 8232 || n = 8233 || n = 8239 || n = 8287 ||
  n = 12288 || n = 65279

/-- Model of `String.prototype.trim`. -/
def trim (s : Text) : Text :=
  ((s.dropWhile isSpace).reverse.dropWhile isSpace).reverse

/-- Worker of `splitWs`: `cur` is the token being read (reversed) and `inGap` tells
whether the previous character was whitespace. -/
def splitWsAux : Text → Text → Bool → List Text
  | [], cur, _ => [cur.reverse]
  | c :: cs, cur, inGap =>
    if isSpace c then
      if inGap then splitWsAux cs cur true
      else cur.reverse :: splitWsAux cs [] true
    else splitWsAux cs (c :: cur) false

/-- Model of `text.split(/\s+/)`: the pieces between maximal runs of whitespace. -/
def splitWs (s : Text) : List Text := splitWsAux s [] false

/-- Model of `(text.match(/!/g) || []).length`. -/
def exclamationCount (text : Text) : Nat := text.count '!'

/-! ## Numbers -/

/-- Model of `parseFloat(x.toFixed(3))`: the multiple of `1/1000` nearest to `x`,
a tie going away from zero. In the source `x` is a binary floating-point value, and a
value that the exact arithmetic puts half-way between two thousandths may there lie just
below or just above; the statements about rounded values therefore fix the result only
up to the choice between the two nearest thousandths in that case. -/
def toFixed3 (x : ℚ) : ℚ :=
  if x < 0 then -((⌊(-x) * 1000 + 1 / 2⌋ : ℤ) : ℚ) / 1000
  else ((⌊x * 1000 + 1 / 2⌋ : ℤ) : ℚ) / 1000

/-! ## Scorer -/

def positiveWords : List Text :=
  ["excellent", "great", "good", "amazing", "wonderful", "perfect", "outstanding",
   "fantastic", "awesome", "brilliant", "love", "best", "happy", "satisfied",
   "pleased", "impressed"].map String.toList

def negativeWords : List Text :=
  ["bad", "terrible", "awful", "horrible", "poor", "disappointing", "worst", "hate",
   "angry", "frustrated", "annoyed", "useless", "waste", "broken", "failed"].map String.toList

/-- The number of positive lexicon entries that occur in the lower-cased text. -/
def positiveMatches (lowerText : Text) : Nat :=
  (positiveWords.filter (fun word => includes lowerText word)).length

/-- The number of negative lexicon entries that occur in the lower-cased text. -/
def negativeMatches (lowerText : Text) : Nat :=
  (negativeWords.filter (fun word => includes lowerText word)).length

/-- Polarity from the keyword counts; `random` is the value of `Math.random()`,
read in the tie case only. -/
def basePolarity (pos neg : Nat) (random : ℚ) : ℚ :=
  if pos > neg then min (1 / 10 + (pos : ℚ) * (15 / 100)) (9 / 10)
  else if neg > pos then max (-(1 / 10) - (neg : ℚ) * (15 / 100)) (-(9 / 10))
  else random * (4 / 10) - 2 / 10

/-- The exclamation-mark adjustment of the polarity. -/
def adjustPolarity (polarity : ℚ) (bangs : Nat) : ℚ :=
  if bangs > 0 then
    polarity + (if polarity > 0 then 1 / 10 else -(1 / 10)) * ((min bangs 3 : Nat) : ℚ)
  else polarity

/-- The polarity of a text before it is rounded for output. -/
def rawPolarity (lower : Text → Text) (random : ℚ) (text : Text) : ℚ :=
  adjustPolarity
    (basePolarity (positiveMatches (lower text)) (negativeMatches (lower text)) random)
    (exclamationCount text)

/-- The sentiment label of an (unrounded) polarity: the two successive `if`s of the source. -/
def classify (polarity : ℚ) : String :=
  let sentiment := "neutral"
  let sentiment := if polarity > 25 / 100 then "positive" else sentiment
  if polarity < -(25 / 100) then "negative" else sentiment

/-- The subjectivity of a text before it is rounded for output. -/
def rawSubjectivity (lower : Text → Text) (text : Text) : ℚ :=
  let wordCount := (splitWs text).length
  let emotionalWords := positiveMatches (lower text) + negativeMatches (lower text)
  min (2 / 10 + ((emotionalWords : ℚ) / (wordCount : ℚ)) * (8 / 10)) (9 / 10)

/-- What `analyzeSentiment` returns. -/
structure Analysis where
  polarity : ℚ
  sentiment : String
  subjectivity : ℚ
  deriving DecidableEq

/-- Model of `analyzeSentiment(text)`. -/
def analyzeSentiment (lower : Text → Text) (random : ℚ) (text : Text) : Analysis :=
  { polarity := toFixed3 (rawPolarity lower random text)
    sentiment := classify (rawPolarity lower random text)
    subjectivity := toFixed3 (rawSubjectivity lower text) }

/-! ## Records and the persisted store -/

/-- What the clock and the random source supply when one text is analysed:
the tie-break draw, the creation time, and the variable part of the identifier
(built in the source from `Date.now()` and `Math.random()`). -/
structure Stamp where
  random : ℚ
  timestamp : Time
  idSuffix : String
  deriving DecidableEq

/-- One record of the analysis history. -/
structure AnalysisResult where
  text : Text
  polarity : ℚ
  sentiment : String
  subjectivity : ℚ
  timestamp : Time
  id : String
  wordCount : Nat
  deriving DecidableEq

/-- The dashboard statistics record. -/
structure DashboardStats where
  totalAnalysis : Nat
  positive : Nat
  negative : Nat
  neutral : Nat
  averagePolarity : ℚ
  lastUpdated : Time
  deriving DecidableEq

/-- The two `localStorage` entries: the history list (an absent key reads as the
empty list) and the stats record (absent until first saved). -/
structure Store where
  history : List AnalysisResult
  stats : Option DashboardStats
  deriving DecidableEq

/-- The store with both keys absent. -/
def Store.empty : Store := { history := [], stats := none }

/-- Model of `Array.prototype.slice(start, end)` for integer arguments. -/
def jsSlice {α : Type} (l : List α) (start stop : Int) : List α :=
  let len : Int := l.length
  let k : Int := if start < 0 then max (len + start) 0 else min start len
  let fin : Int := if stop < 0 then max (len + stop) 0 else min stop len
  (l.drop k.toNat).take (fin - k).toNat

/-- Model of `items.reduce((sum, item) => sum + item.polarity, 0)`. -/
def totalPolarity (items : List AnalysisResult) : ℚ :=
  items.foldl (fun sum item => sum + item.polarity) 0

/-- Model of `items.filter(item => item.sentiment === label).length`. -/
def countSentiment (label : String) (items : List AnalysisResult) : Nat :=
  (items.filter (fun item => item.sentiment == label)).length

/-- The helper `getAnalysisHistory` (reads the history key). -/
def getAnalysisHistory (store : Store) : List AnalysisResult := store.history

/-- The helper `saveAnalysisHistory`. -/
def saveAnalysisHistory (store : Store) (history : List AnalysisResult) : Store :=
  { store with history := history }

/-- The helper `getDashboardStats`: the persisted record, or zeros stamped with the
current time when nothing is persisted. -/
def getDashboardStats (store : Store) (now : Time) : DashboardStats :=
  match store.stats with
  | some stats => stats
  | none =>
    { totalAnalysis := 0, positive := 0, negative := 0, neutral := 0,
      averagePolarity := 0, lastUpdated := now }

/-- The helper `saveDashboardStats`: persists the record with `lastUpdated` set to the
current time. -/
def saveDashboardStats (store : Store) (stats : DashboardStats) (now : Time) : Store :=
  { store with stats := some { stats with lastUpdated := now } }

/-- Model of `updateDashboardStats(newAnalysis)`: it reads the history that is stored
at the time of the call. The record it builds has no `lastUpdated` of its own, the
field is written by `saveDashboardStats`. -/
def updateDashboardStats (store : Store) (newAnalysis : AnalysisResult) (now : Time) : Store :=
  let history := getAnalysisHistory store
  let allAnalyses := newAnalysis :: history
  let averagePolarity := totalPolarity allAnalyses / (allAnalyses.length : ℚ)
  let newStats : DashboardStats :=
    { totalAnalysis := allAnalyses.length
      positive := countSentiment "positive" allAnalyses
      negative := countSentiment "negative" allAnalyses
      neutral := countSentiment "neutral" allAnalyses
      averagePolarity := toFixed3 averagePolarity
      lastUpdated := now }
  saveDashboardStats store newStats now

/-! ## Input values -/

/-- The JavaScript values a caller can pass to the service. -/
inductive JsValue where
  | undefined
  | null
  | boolean (b : Bool)
  | number (x : ℚ)
  | string (s : Text)
  | array (items : List JsValue)
  | object (fields : List (Text × JsValue))

/-- JavaScript truthiness (`!value` is its negation). -/
def JsValue.truthy : JsValue → Bool
  | .undefined => false
  | .null => false
  | .boolean b => b
  | .number x => x != 0
  | .string s => !s.isEmpty
  | .array _ => true
  | .object _ => true

/-! ## The service -/

namespace sentimentAPI

/-- The result record built for one (already trimmed) text. -/
def mkResult (lower : Text → Text) (idKind : String) (text : Text) (stamp : Stamp) :
    AnalysisResult :=
  let analysis := analyzeSentiment lower stamp.random text
  { text := text
    polarity := analysis.polarity
    sentiment := analysis.sentiment
    subjectivity := analysis.subjectivity
    timestamp := stamp.timestamp
    id := idKind ++ stamp.idSuffix
    wordCount := (splitWs text).length }

/-- Model of `sentimentAPI.analyzeText(text)`: the new store and the `data` of the
response, or the message of the error thrown. -/
def analyzeText (lower : Text → Text) (store : Store) (text : JsValue) (stamp : Stamp)
    (now : Time) : Except String (Store × AnalysisResult) :=
  match text with
  | .string s =>
    if !text.truthy || (trim s).length == 0 then .error "Invalid text input"
    else
      let result := mkResult lower "analysis_" (trim s) stamp
      let history := getAnalysisHistory store
      let newHistory := jsSlice (result :: history) 0 100
      let store := saveAnalysisHistory store newHistory
      let store := updateDashboardStats store result now
      .ok (store, result)
  | _ => .error "Invalid text input"

/-- The results of a batch: the `i`-th valid text is analysed with the `i`-th stamp. -/
def batchResults (lower : Text → Text) (stamps : Nat → Stamp) : Nat → List Text →
    List AnalysisResult
  | _, [] => []
  | i, text :: rest =>
    mkResult lower "batch_" text (stamps i) :: batchResults lower stamps (i + 1) rest

/-- The `summary` of a batch response. -/
structure BatchSummary where
  total : Nat
  positive : Nat
  negative : Nat
  neutral : Nat
  deriving DecidableEq

/-- The response of `analyzeBatch`. -/
structure BatchResponse where
  data : List AnalysisResult
  summary : BatchSummary
  deriving DecidableEq

/-- The texts of a batch that are kept: strings, trimmed, the blank ones dropped. -/
def validTexts (texts : List JsValue) : List Text :=
  (texts.map (fun text => match text with
    | .string s => trim s
    | _ => [])).filter (fun text => text.length > 0)

/-- Model of `sentimentAPI.analyzeBatch(texts)`. -/
def analyzeBatch (lower : Text → Text) (store : Store) (texts : JsValue)
    (stamps : Nat → Stamp) (now : Time) : Except String (Store × BatchResponse) :=
  match texts with
  | .array items =>
    if items.length == 0 then .error "Invalid texts array"
    else if (validTexts items).length == 0 then .error "No valid texts to analyze"
    else
      let results := batchResults lower stamps 0 (validTexts items)
      let history := getAnalysisHistory store
      let newHistory := jsSlice (results ++ history) 0 100
      let store := saveAnalysisHistory store newHistory
      let store := results.foldl (fun st result => updateDashboardStats st result now) store
      .ok (store,
        { data := results
          summary :=
            { total := results.length
              positive := countSentiment "positive" results
              negative := countSentiment "negative" results
              neutral := countSentiment "neutral" results } })
  | _ => .error "Invalid texts array"

/-- The `pagination` of a history page. -/
structure Pagination where
  page : Int
  limit : Int
  total : Nat
  totalPages : Int
  deriving DecidableEq

/-- The response of `getAnalysisHistory`. -/
structure HistoryPage where
  data : List AnalysisResult
  pagination : Pagination
  deriving DecidableEq

/-- Model of `sentimentAPI.getAnalysisHistory(page, limit)` for integer arguments. -/
def getAnalysisHistory (store : Store) (page limit : Int) : HistoryPage :=
  let history := SentimentDashboard.getAnalysisHistory store
  let startIndex := (page - 1) * limit
  let endIndex := startIndex + limit
  let paginatedHistory := jsSlice history startIndex endIndex
  { data := paginatedHistory
    pagination :=
      { page := page
        limit := limit
        total := history.length
        totalPages := ⌈(history.length : ℚ) / (limit : ℚ)⌉ } }

/-- Model of `sentimentAPI.getDashboardStats()`: the new store and the `data` of the
response. -/
def getDashboardStats (store : Store) (now : Time) : Store × DashboardStats :=
  let stats := SentimentDashboard.getDashboardStats store now
  let history := SentimentDashboard.getAnalysisHistory store
  let averagePolarity : ℚ :=
    if history.length > 0 then totalPolarity history / (history.length : ℚ) else 0
  let syncedStats : DashboardStats :=
    { totalAnalysis := history.length
      positive := countSentiment "positive" history
      negative := countSentiment "negative" history
      neutral := countSentiment "neutral" history
      averagePolarity := toFixed3 averagePolarity
      lastUpdated := stats.lastUpdated }
  (saveDashboardStats store syncedStats now, syncedStats)

/-- Model of `sentimentAPI.clearAnalysisHistory()`: both keys are removed. -/
def clearAnalysisHistory (_store : Store) : Store :=
  { history := [], stats := none }

/-- The `metadata` of an export. -/
structure ExportMetadata where
  exportedAt : Time
  totalRecords : Nat
  version : String
  deriving DecidableEq

/-- The `data` of the response of `exportAnalysisData`. -/
structure ExportData where
  metadata : ExportMetadata
  statistics : DashboardStats
  analyses : List AnalysisResult
  deriving DecidableEq

/-- Model of `sentimentAPI.exportAnalysisData()`. -/
def exportAnalysisData (store : Store) (now : Time) : ExportData :=
  let history := SentimentDashboard.getAnalysisHistory store
  let stats := SentimentDashboard.getDashboardStats store now
  { metadata := { exportedAt := now, totalRecords := history.length, version := "1.0" }
    statistics := stats
    analyses := history }

/-- The `summary` of a search response. -/
structure SearchSummary where
  total : Nat
  query : Text
  sentimentFilter : String
  deriving DecidableEq

/-- The response of `searchAnalyses`. -/
structure SearchResponse where
  data : List AnalysisResult
  summary : SearchSummary
  deriving DecidableEq

/-- Model of `sentimentAPI.searchAnalyses(query, sentimentFilter)` for a string query: the
store as the call leaves it (the source only reads) and the response. -/
def searchAnalyses (lower : Text → Text) (store : Store) (query : Text)
    (sentimentFilter : String) : Store × SearchResponse :=
  let history := SentimentDashboard.getAnalysisHistory store
  let lowerQuery := lower query
  let filtered := history.filter (fun item =>
    let matchesText := includes (lower item.text) lowerQuery
    let matchesSentiment := sentimentFilter == "all" || item.sentiment == sentimentFilter
    matchesText && matchesSentiment)
  (store,
    { data := filtered
      summary := { total := filtered.length, query := query, sentimentFilter := sentimentFilter } })

end sentimentAPI

/-! ## Definitions that follow the wording of the specification -/

/-- The sign function of the specification, with `specSign 0 = 0`. -/
def specSign (x : ℚ) : ℚ := if 0 < x then 1 else if x < 0 then -1 else 0

/-- The `appendMany` of the specification: each result is inserted at the front, one at
a time in the given order, and the capacity trim is applied once at the end. -/
def specAppendMany (history results : List AnalysisResult) : List AnalysisResult :=
  (results.foldl (fun h result => result :: h) history).take 100

/-! ## Runs of the service -/

/-- The store after a call of `analyzeText` or `analyzeBatch`: the one the call returns,
or, when the call throws, the store as it was, the `throw` statements of the source
standing before every access to `localStorage`. -/
def storeAfter {α : Type} (store : Store) (outcome : Except String (Store × α)) : Store :=
  match outcome with
  | .ok (store1, _) => store1
  | .error _ => store

/-- A sequence of `analyzeText` calls, each with its text, stamp and clock reading, run
one after the other; the results are listed in call order. -/
def analyzeTextAll (lower : Text → Text) :
    Store → List (Text × Stamp × Time) → Except String (Store × List AnalysisResult)
  | store, [] => .ok (store, [])
  | store, call :: rest =>
    match sentimentAPI.analyzeText lower store (.string call.1) call.2.1 call.2.2 with
    | .error e => .error e
    | .ok (store1, result) =>
      match analyzeTextAll lower store1 rest with
      | .error e => .error e
      | .ok (store2, results) => .ok (store2, result :: results)

/-- The store states reachable from the empty store by the operations of the service. -/
inductive Reachable (lower : Text → Text) : Store → Prop where
  | empty : Reachable lower Store.empty
  | analyzeText {store store1 : Store} {text : JsValue} {stamp : Stamp} {now : Time}
      {result : AnalysisResult} :
      Reachable lower store →
      sentimentAPI.analyzeText lower store text stamp now = .ok (store1, result) →
      Reachable lower store1
  | analyzeBatch {store store1 : Store} {texts : JsValue} {stamps : Nat → Stamp} {now : Time}
      {response : sentimentAPI.BatchResponse} :
      Reachable lower store →
      sentimentAPI.analyzeBatch lower store texts stamps now = .ok (store1, response) →
      Reachable lower store1
  | getDashboardStats {store : Store} {now : Time} :
      Reachable lower store →
      Reachable lower (sentimentAPI.getDashboardStats store now).1
  | clearAnalysisHistory {store : Store} :
      Reachable lower store →
      Reachable lower (sentimentAPI.clearAnalysisHistory store)

/-! ## Lemmas: rounding -/

theorem floor_intCast_add_half (k : ℤ) : ⌊(k : ℚ) + 1 / 2⌋ = k := by
  rw [Int.floor_eq_iff]
  constructor <;> norm_num

theorem toFixed3_intCast_div (k : ℤ) : toFixed3 ((k : ℚ) / 1000) = (k : ℚ) / 1000 := by
  unfold toFixed3
  split_ifs with h
  · have hk : -((k : ℚ) / 1000) * 1000 + 1 / 2 = ((-k : ℤ) : ℚ) + 1 / 2 := by
      push_cast; ring
    rw [hk, floor_intCast_add_half]
    push_cast; ring
  · have hk : (k : ℚ) / 1000 * 1000 + 1 / 2 = (k : ℚ) + 1 / 2 := by ring
    rw [hk, floor_intCast_add_half]

theorem toFixed3_natCast_div (k : ℕ) : toFixed3 ((k : ℚ) / 1000) = (k : ℚ) / 1000 := by
  have h := toFixed3_intCast_div (k : ℤ)
  simpa using h

theorem toFixed3_neg_natCast_div (k : ℕ) :
    toFixed3 (-(k : ℚ) / 1000) = -(k : ℚ) / 1000 := by
  have h := toFixed3_intCast_div (-(k : ℤ))
  simpa using h

theorem toFixed3_nonneg {x : ℚ} (h : 0 ≤ x) : 0 ≤ toFixed3 x := by
  unfold toFixed3
  rw [if_neg (not_lt.mpr h)]
  apply div_nonneg _ (by norm_num)
  have hf : (0 : ℤ) ≤ ⌊x * 1000 + 1 / 2⌋ := Int.floor_nonneg.mpr (by positivity)
  exact_mod_cast hf

theorem toFixed3_nonpos {x : ℚ} (h : x ≤ 0) : toFixed3 x ≤ 0 := by
  unfold toFixed3
  split_ifs with h0
  · apply div_nonpos_of_nonpos_of_nonneg _ (by norm_num)
    have hf : (0 : ℤ) ≤ ⌊-x * 1000 + 1 / 2⌋ := Int.floor_nonneg.mpr (by nlinarith)
    have h2 : (0 : ℚ) ≤ ((⌊-x * 1000 + 1 / 2⌋ : ℤ) : ℚ) := by exact_mod_cast hf
    linarith
  · have hx : x = 0 := le_antisymm h (not_lt.mp h0)
    subst hx
    norm_num

theorem toFixed3_mono {x y : ℚ} (h : x ≤ y) : toFixed3 x ≤ toFixed3 y := by
  rcases lt_or_le x 0 with hx | hx
  · rcases lt_or_le y 0 with hy | hy
    · unfold toFixed3
      rw [if_pos hx, if_pos hy]
      have hf : ⌊-y * 1000 + 1 / 2⌋ ≤ ⌊-x * 1000 + 1 / 2⌋ := Int.floor_mono (by linarith)
      have h2 : ((⌊-y * 1000 + 1 / 2⌋ : ℤ) : ℚ) ≤ ((⌊-x * 1000 + 1 / 2⌋ : ℤ) : ℚ) := by
        exact_mod_cast hf
      linarith
    · exact le_trans (toFixed3_nonpos hx.le) (toFixed3_nonneg hy)
  · have hy : 0 ≤ y := le_trans hx h
    unfold toFixed3
    rw [if_neg (not_lt.mpr hx), if_neg (not_lt.mpr hy)]
    have hf : ⌊x * 1000 + 1 / 2⌋ ≤ ⌊y * 1000 + 1 / 2⌋ := Int.floor_mono (by linarith)
    have h2 : ((⌊x * 1000 + 1 / 2⌋ : ℤ) : ℚ) ≤ ((⌊y * 1000 + 1 / 2⌋ : ℤ) : ℚ) := by
      exact_mod_cast hf
    linarith

theorem toFixed3_quarter : toFixed3 (25 / 100) = 25 / 100 := by
  have h := toFixed3_intCast_div 250
  norm_num at h ⊢
  exact h

theorem toFixed3_neg_quarter : toFixed3 (-(25 / 100)) = -(25 / 100) := by
  have h := toFixed3_intCast_div (-250)
  norm_num at h ⊢
  exact h

/-- The value of `toFixed3` is a whole number of thousandths. -/
theorem toFixed3_thousandths (x : ℚ) : ∃ k : ℤ, 1000 * toFixed3 x = (k : ℚ) := by
  unfold toFixed3
  split_ifs
  · exact ⟨-⌊-x * 1000 + 1 / 2⌋, by push_cast; ring⟩
  · exact ⟨⌊x * 1000 + 1 / 2⌋, by ring⟩

/-- The value of `toFixed3` is within half a thousandth of its argument. -/
theorem toFixed3_close (x : ℚ) : |toFixed3 x - x| ≤ 1 / 2000 := by
  unfold toFixed3
  split_ifs with h
  · have h1 : ((⌊-x * 1000 + 1 / 2⌋ : ℤ) : ℚ) ≤ -x * 1000 + 1 / 2 := Int.floor_le _
    have h2 : -x * 1000 + 1 / 2 < ((⌊-x * 1000 + 1 / 2⌋ : ℤ) : ℚ) + 1 := Int.lt_floor_add_one _
    rw [abs_le]
    constructor <;> linarith
  · have h1 : ((⌊x * 1000 + 1 / 2⌋ : ℤ) : ℚ) ≤ x * 1000 + 1 / 2 := Int.floor_le _
    have h2 : x * 1000 + 1 / 2 < ((⌊x * 1000 + 1 / 2⌋ : ℤ) : ℚ) + 1 := Int.lt_floor_add_one _
    rw [abs_le]
    constructor <;> linarith

/-! ## Lemmas: the scorer -/

theorem positiveMatches_le (t : Text) : positiveMatches t ≤ 16 := by
  unfold positiveMatches
  exact le_trans (List.length_filter_le _ _) (by decide)

theorem negativeMatches_le (t : Text) : negativeMatches t ≤ 15 := by
  unfold negativeMatches
  exact le_trans (List.length_filter_le _ _) (by decide)

theorem includes_iff_infix (s w : Text) : includes s w = true ↔ w <:+: s := by
  induction s with
  | nil =>
    rw [List.infix_nil]
    cases w <;> simp [includes]
  | cons c cs ih =>
    rw [List.infix_cons_iff, ← ih]
    simp [includes, List.isPrefixOf_iff_prefix]

theorem positiveWords_nodup : positiveWords.Nodup := by decide

theorem negativeWords_nodup : negativeWords.Nodup := by decide

/-- The number of entries of a duplicate-free word list that `includes` finds in a text is
the number of distinct entries that are contiguous sublists of the text. -/
theorem filter_includes_length (words : List Text) (hnd : words.Nodup) (t : Text) :
    (words.filter (fun word => includes t word)).length
      = (words.toFinset.filter (fun w => w <:+: t)).card := by
  rw [← List.toFinset_card_of_nodup (hnd.filter _), List.toFinset_filter]
  congr 1
  apply Finset.filter_congr
  intro w _
  exact includes_iff_infix t w

theorem classify_eq (x : ℚ) :
    classify x =
      if x < -(25 / 100) then "negative" else if 25 / 100 < x then "positive" else "neutral" :=
  rfl

theorem classify_positive_iff (x : ℚ) : classify x = "positive" ↔ 25 / 100 < x := by
  rw [classify_eq]
  constructor
  · intro h
    by_contra hx
    rw [if_neg hx] at h
    split_ifs at h <;> exact absurd h (by decide)
  · intro hx
    rw [if_pos hx, if_neg (by linarith)]

theorem classify_negative_iff (x : ℚ) : classify x = "negative" ↔ x < -(25 / 100) := by
  rw [classify_eq]
  constructor
  · intro h
    by_contra hx
    rw [if_neg hx] at h
    split_ifs at h <;> exact absurd h (by decide)
  · intro hx
    rw [if_pos hx]

theorem classify_neutral_iff (x : ℚ) :
    classify x = "neutral" ↔ -(25 / 100) ≤ x ∧ x ≤ 25 / 100 := by
  rw [classify_eq]
  constructor
  · intro h
    constructor
    · by_contra hx
      rw [if_pos (not_le.mp hx)] at h
      exact absurd h (by decide)
    · by_contra hx
      rw [if_pos (not_le.mp hx)] at h
      split_ifs at h <;> exact absurd h (by decide)
  · rintro ⟨h1, h2⟩
    rw [if_neg (not_lt.mpr h1), if_neg (not_lt.mpr h2)]

/-- The base polarity of a text with more positive than negative markers, in thousandths. -/
theorem basePolarity_of_lt {pos neg : Nat} (h : neg < pos) (random : ℚ) :
    basePolarity pos neg random = ((min (100 + 150 * pos) 900 : ℕ) : ℚ) / 1000 := by
  unfold basePolarity
  rw [if_pos h]
  rcases Nat.lt_or_ge pos 6 with hp | hp
  · have hq : (pos : ℚ) ≤ 5 := by exact_mod_cast Nat.lt_succ_iff.mp hp
    rw [min_eq_left (by linarith), Nat.min_eq_left (by omega)]
    push_cast; ring
  · have hq : (6 : ℚ) ≤ (pos : ℚ) := by exact_mod_cast hp
    rw [min_eq_right (by linarith), Nat.min_eq_right (by omega)]
    norm_num

/-- The base polarity of a text with more negative than positive markers, in thousandths. -/
theorem basePolarity_of_gt {pos neg : Nat} (h : pos < neg) (random : ℚ) :
    basePolarity pos neg random = -((min (100 + 150 * neg) 900 : ℕ) : ℚ) / 1000 := by
  unfold basePolarity
  rw [if_neg (by omega), if_pos h]
  rcases Nat.lt_or_ge neg 6 with hp | hp
  · have hq : (neg : ℚ) ≤ 5 := by exact_mod_cast Nat.lt_succ_iff.mp hp
    rw [max_eq_left (by linarith), Nat.min_eq_left (by omega)]
    push_cast; ring
  · have hq : (6 : ℚ) ≤ (neg : ℚ) := by exact_mod_cast hp
    rw [max_eq_right (by linarith), Nat.min_eq_right (by omega)]
    norm_num

theorem adjustPolarity_of_pos {x : ℚ} (hx : 0 < x) (bangs : Nat) :
    adjustPolarity x bangs = x + ((min bangs 3 : ℕ) : ℚ) / 10 := by
  unfold adjustPolarity
  split_ifs with hb
  · ring
  · have h0 : bangs = 0 := by omega
    subst h0
    norm_num

theorem adjustPolarity_of_nonpos {x : ℚ} (hx : x ≤ 0) (bangs : Nat) :
    adjustPolarity x bangs = x - ((min bangs 3 : ℕ) : ℚ) / 10 := by
  unfold adjustPolarity
  rw [if_neg (not_lt.mpr hx)]
  split_ifs with hb
  · ring
  · have h0 : bangs = 0 := by omega
    subst h0
    norm_num

/-- The unrounded polarity when the positive markers outnumber the negative ones. -/
theorem rawPolarity_of_lt (lower : Text → Text) (random : ℚ) (text : Text)
    (h : negativeMatches (lower text) < positiveMatches (lower text)) :
    rawPolarity lower random text =
      ((min (100 + 150 * positiveMatches (lower text)) 900
        + 100 * min (exclamationCount text) 3 : ℕ) : ℚ) / 1000 := by
  unfold rawPolarity
  rw [basePolarity_of_lt h, adjustPolarity_of_pos]
  · push_cast; ring
  · apply div_pos _ (by norm_num)
    have hk : 0 < min (100 + 150 * positiveMatches (lower text)) 900 := by omega
    exact_mod_cast hk

/-- The unrounded polarity when the negative markers outnumber the positive ones. -/
theorem rawPolarity_of_gt (lower : Text → Text) (random : ℚ) (text : Text)
    (h : positiveMatches (lower text) < negativeMatches (lower text)) :
    rawPolarity lower random text =
      -((min (100 + 150 * negativeMatches (lower text)) 900
        + 100 * min (exclamationCount text) 3 : ℕ) : ℚ) / 1000 := by
  unfold rawPolarity
  rw [basePolarity_of_gt h, adjustPolarity_of_nonpos]
  · push_cast; ring
  · apply div_nonpos_of_nonpos_of_nonneg _ (by norm_num)
    have hk : (0 : ℚ) ≤ ((min (100 + 150 * negativeMatches (lower text)) 900 : ℕ) : ℚ) :=
      Nat.cast_nonneg _
    linarith

/-! ## Claims about the scorer -/

/-- C1, as stated, fails: the text `good` holds one positive marker and no negative
marker, and its sentiment is `neutral`, with polarity exactly `0.25`. -/
theorem C1_single_marker_neutral :
    includes (asciiLower "good".toList) "good".toList = true ∧
    positiveMatches (asciiLower "good".toList) = 1 ∧
    negativeMatches (asciiLower "good".toList) = 0 ∧
    (analyzeSentiment asciiLower 0 "good".toList).polarity = 25 / 100 ∧
    (analyzeSentiment asciiLower 0 "good".toList).sentiment = "neutral" ∧
    (analyzeSentiment asciiLower 0 "good".toList).sentiment ≠ "positive" := by
  have hp : positiveMatches (asciiLower "good".toList) = 1 := by decide
  have hn : negativeMatches (asciiLower "good".toList) = 0 := by decide
  have hb : exclamationCount "good".toList = 0 := by decide
  have hraw : rawPolarity asciiLower 0 "good".toList = 25 / 100 := by
    rw [rawPolarity_of_lt asciiLower 0 _ (by rw [hp, hn]; decide), hp, hb]
    norm_num
  have hs : (analyzeSentiment asciiLower 0 "good".toList).sentiment = "neutral" := by
    show classify (rawPolarity asciiLower 0 "good".toList) = "neutral"
    rw [hraw, classify_neutral_iff]
    norm_num
  refine ⟨by decide, hp, hn, ?_, hs, ?_⟩
  · show toFixed3 (rawPolarity asciiLower 0 "good".toList) = 25 / 100
    rw [hraw, toFixed3_quarter]
  · rw [hs]
    decide

/-- C1, amended: a text with at least one positive marker and no negative marker has a
positive returned polarity, whatever the draw; its sentiment is `positive` exactly when
it holds at least two distinct positive markers or at least one exclamation mark, and
with a single marker and no exclamation mark the polarity is `0.25` and the sentiment
`neutral`. -/
theorem C1_positive_markers (lower : Text → Text) (random : ℚ) (text : Text)
    (hpos : 1 ≤ positiveMatches (lower text)) (hneg : negativeMatches (lower text) = 0) :
    0 < (analyzeSentiment lower random text).polarity ∧
    ((analyzeSentiment lower random text).sentiment = "positive" ↔
      (2 ≤ positiveMatches (lower text) ∨ 0 < exclamationCount text)) ∧
    (positiveMatches (lower text) = 1 → exclamationCount text = 0 →
      (analyzeSentiment lower random text).polarity = 25 / 100 ∧
      (analyzeSentiment lower random text).sentiment = "neutral") := by
  have hlt : negativeMatches (lower text) < positiveMatches (lower text) := by omega
  have hraw := rawPolarity_of_lt lower random text hlt
  have hfix : toFixed3 (rawPolarity lower random text) = rawPolarity lower random text := by
    rw [hraw, toFixed3_natCast_div]
  refine ⟨?_, ?_, ?_⟩
  · show 0 < toFixed3 (rawPolarity lower random text)
    rw [hfix, hraw]
    apply div_pos _ (by norm_num)
    have hk : 0 < min (100 + 150 * positiveMatches (lower text)) 900
        + 100 * min (exclamationCount text) 3 := by omega
    exact_mod_cast hk
  · show classify (rawPolarity lower random text) = "positive" ↔ _
    rw [classify_positive_iff, hraw, lt_div_iff₀ (by norm_num)]
    have hc : ((25 : ℚ) / 100 * 1000) = ((250 : ℕ) : ℚ) := by norm_num
    rw [hc, Nat.cast_lt]
    omega
  · intro h1 hb
    have hq : rawPolarity lower random text = 25 / 100 := by
      rw [hraw, h1, hb]
      norm_num
    constructor
    · show toFixed3 (rawPolarity lower random text) = 25 / 100
      rw [hq, toFixed3_quarter]
    · show classify (rawPolarity lower random text) = "neutral"
      rw [hq, classify_neutral_iff]
      norm_num

/-- Witness of `C1_positive_markers`: the example of the specification,
`The service was excellent and very helpful!`, is `positive` with polarity `0.35`. -/
theorem C1_positive_markers_witness :
    1 ≤ positiveMatches (asciiLower "The service was excellent and very helpful!".toList) ∧
    negativeMatches (asciiLower "The service was excellent and very helpful!".toList) = 0 ∧
    0 < (analyzeSentiment asciiLower 0
          "The service was excellent and very helpful!".toList).polarity ∧
    (analyzeSentiment asciiLower 0
      "The service was excellent and very helpful!".toList).sentiment = "positive" := by
  have h := C1_positive_markers asciiLower 0
    "The service was excellent and very helpful!".toList (by decide) (by decide)
  exact ⟨by decide, by decide, h.1, h.2.1.mpr (Or.inr (by decide))⟩

/-- C2, as stated, fails: for the text `ok!` and the draw `897/1024` the unrounded
polarity is `0.250390625`, so the sentiment is `positive`, while the returned polarity is
`0.25`, which is not above the threshold. -/
theorem C2_label_not_from_rounded :
    (0 : ℚ) ≤ 897 / 1024 ∧ (897 : ℚ) / 1024 < 1 ∧
    (analyzeSentiment asciiLower (897 / 1024) "ok!".toList).sentiment = "positive" ∧
    (analyzeSentiment asciiLower (897 / 1024) "ok!".toList).polarity = 25 / 100 ∧
    ¬ ((analyzeSentiment asciiLower (897 / 1024) "ok!".toList).sentiment = "positive" ↔
        (analyzeSentiment asciiLower (897 / 1024) "ok!".toList).polarity > 25 / 100) := by
  have hp : positiveMatches (asciiLower "ok!".toList) = 0 := by decide
  have hn : negativeMatches (asciiLower "ok!".toList) = 0 := by decide
  have hb : exclamationCount "ok!".toList = 1 := by decide
  have hraw : rawPolarity asciiLower (897 / 1024) "ok!".toList = 641 / 2560 := by
    unfold rawPolarity
    rw [hp, hn, hb]
    norm_num [basePolarity, adjustPolarity]
  have hs : (analyzeSentiment asciiLower (897 / 1024) "ok!".toList).sentiment = "positive" := by
    show classify (rawPolarity asciiLower (897 / 1024) "ok!".toList) = "positive"
    rw [hraw, classify_positive_iff]
    norm_num
  have hpol : (analyzeSentiment asciiLower (897 / 1024) "ok!".toList).polarity = 25 / 100 := by
    show toFixed3 (rawPolarity asciiLower (897 / 1024) "ok!".toList) = 25 / 100
    rw [hraw]
    unfold toFixed3
    rw [if_neg (by norm_num)]
    have hf : ⌊(641 : ℚ) / 2560 * 1000 + 1 / 2⌋ = 250 := by
      rw [Int.floor_eq_iff]
      constructor <;> norm_num
    rw [hf]
    norm_num
  refine ⟨by norm_num, by norm_num, hs, hpol, ?_⟩
  intro h
  have hgt := h.mp hs
  rw [hpol] at hgt
  exact lt_irrefl _ hgt

/-- C2, amended: the returned sentiment is the threshold rule applied to the polarity
before rounding; on the returned 3-decimal polarity it holds away from the two
thresholds (above `0.25` the sentiment is `positive`, below `-0.25` it is `negative`,
strictly between them it is `neutral`), and a `positive` result has returned polarity at
least `0.25`, a `negative` one at most `-0.25`, a `neutral` one between the two. -/
theorem C2_sentiment_of_polarity (lower : Text → Text) (random : ℚ) (text : Text) :
    (analyzeSentiment lower random text).sentiment = classify (rawPolarity lower random text) ∧
    ((analyzeSentiment lower random text).polarity > 25 / 100 →
      (analyzeSentiment lower random text).sentiment = "positive") ∧
    ((analyzeSentiment lower random text).polarity < -(25 / 100) →
      (analyzeSentiment lower random text).sentiment = "negative") ∧
    (-(25 / 100) < (analyzeSentiment lower random text).polarity ∧
        (analyzeSentiment lower random text).polarity < 25 / 100 →
      (analyzeSentiment lower random text).sentiment = "neutral") ∧
    ((analyzeSentiment lower random text).sentiment = "positive" →
      (analyzeSentiment lower random text).polarity ≥ 25 / 100) ∧
    ((analyzeSentiment lower random text).sentiment = "negative" →
      (analyzeSentiment lower random text).polarity ≤ -(25 / 100)) ∧
    ((analyzeSentiment lower random text).sentiment = "neutral" →
      -(25 / 100) ≤ (analyzeSentiment lower random text).polarity ∧
      (analyzeSentiment lower random text).polarity ≤ 25 / 100) := by
  show classify (rawPolarity lower random text) = classify (rawPolarity lower random text) ∧
    (toFixed3 (rawPolarity lower random text) > 25 / 100 →
      classify (rawPolarity lower random text) = "positive") ∧
    (toFixed3 (rawPolarity lower random text) < -(25 / 100) →
      classify (rawPolarity lower random text) = "negative") ∧
    (-(25 / 100) < toFixed3 (rawPolarity lower random text) ∧
        toFixed3 (rawPolarity lower random text) < 25 / 100 →
      classify (rawPolarity lower random text) = "neutral") ∧
    (classify (rawPolarity lower random text) = "positive" →
      toFixed3 (rawPolarity lower random text) ≥ 25 / 100) ∧
    (classify (rawPolarity lower random text) = "negative" →
      toFixed3 (rawPolarity lower random text) ≤ -(25 / 100)) ∧
    (classify (rawPolarity lower random text) = "neutral" →
      -(25 / 100) ≤ toFixed3 (rawPolarity lower random text) ∧
      toFixed3 (rawPolarity lower random text) ≤ 25 / 100)
  generalize rawPolarity lower random text = x
  have hup : x ≤ 25 / 100 → toFixed3 x ≤ 25 / 100 := fun h => by
    have hm := toFixed3_mono h
    rwa [toFixed3_quarter] at hm
  have hup2 : 25 / 100 ≤ x → 25 / 100 ≤ toFixed3 x := fun h => by
    have hm := toFixed3_mono h
    rwa [toFixed3_quarter] at hm
  have hlo : -(25 / 100) ≤ x → -(25 / 100) ≤ toFixed3 x := fun h => by
    have hm := toFixed3_mono h
    rwa [toFixed3_neg_quarter] at hm
  have hlo2 : x ≤ -(25 / 100) → toFixed3 x ≤ -(25 / 100) := fun h => by
    have hm := toFixed3_mono h
    rwa [toFixed3_neg_quarter] at hm
  refine ⟨rfl, ?_, ?_, ?_, ?_, ?_, ?_⟩
  · intro h
    rw [classify_positive_iff]
    by_contra hx
    exact absurd (hup (not_lt.mp hx)) (not_le.mpr h)
  · intro h
    rw [classify_negative_iff]
    by_contra hx
    exact absurd (hlo (not_lt.mp hx)) (not_le.mpr h)
  · rintro ⟨h1, h2⟩
    rw [classify_neutral_iff]
    constructor
    · by_contra hx
      exact absurd (hlo2 (not_le.mp hx).le) (not_le.mpr h1)
    · by_contra hx
      exact absurd (hup2 (not_le.mp hx).le) (not_le.mpr h2)
  · intro h
    rw [classify_positive_iff] at h
    exact hup2 h.le
  · intro h
    rw [classify_negative_iff] at h
    exact hlo2 h.le
  · intro h
    rw [classify_neutral_iff] at h
    exact ⟨hlo h.1, hup h.2⟩

/-- C3, as stated, fails: for the text `ok!` and the draw `1/2` the base polarity is `0`
and the adjusted polarity is `-0.1`, whereas `base + sign(base) * 0.1 * min(bangs, 3)`
is `0`. -/
theorem C3_zero_base_pushed_down :
    (0 : ℚ) ≤ 1 / 2 ∧ (1 : ℚ) / 2 < 1 ∧ 0 < exclamationCount "ok!".toList ∧
    basePolarity (positiveMatches (asciiLower "ok!".toList))
      (negativeMatches (asciiLower "ok!".toList)) (1 / 2) = 0 ∧
    rawPolarity asciiLower (1 / 2) "ok!".toList = -(1 / 10) ∧
    rawPolarity asciiLower (1 / 2) "ok!".toList ≠
      basePolarity (positiveMatches (asciiLower "ok!".toList))
          (negativeMatches (asciiLower "ok!".toList)) (1 / 2)
        + specSign (basePolarity (positiveMatches (asciiLower "ok!".toList))
            (negativeMatches (asciiLower "ok!".toList)) (1 / 2))
          * (1 / 10) * ((min (exclamationCount "ok!".toList) 3 : ℕ) : ℚ) := by
  have hp : positiveMatches (asciiLower "ok!".toList) = 0 := by decide
  have hn : negativeMatches (asciiLower "ok!".toList) = 0 := by decide
  have hb : exclamationCount "ok!".toList = 1 := by decide
  have hbase : basePolarity 0 0 (1 / 2) = 0 := by norm_num [basePolarity]
  have hraw : rawPolarity asciiLower (1 / 2) "ok!".toList = -(1 / 10) := by
    unfold rawPolarity
    rw [hp, hn, hb, hbase]
    norm_num [adjustPolarity]
  refine ⟨by norm_num, by norm_num, by decide, ?_, hraw, ?_⟩
  · rw [hp, hn, hbase]
  · rw [hraw, hp, hn, hb, hbase]
    norm_num [specSign]

/-- C3, amended: with `base` the polarity of step 2 and `bangs` the number of `!`, the
polarity before rounding is `base` when `bangs = 0`, and otherwise
`base + s * 0.1 * min(bangs, 3)` where `s = 1` if `base > 0` and `s = -1` if `base <= 0`
(a base of exactly `0` is pushed down); this is `sign(base) * 0.1 * min(bangs, 3)`
whenever `base` is not `0`. -/
theorem C3_exclamation_adjustment (lower : Text → Text) (random : ℚ) (text : Text) :
    (exclamationCount text = 0 →
      rawPolarity lower random text =
        basePolarity (positiveMatches (lower text)) (negativeMatches (lower text)) random) ∧
    (0 < exclamationCount text →
      rawPolarity lower random text =
        basePolarity (positiveMatches (lower text)) (negativeMatches (lower text)) random
          + (if 0 < basePolarity (positiveMatches (lower text))
                (negativeMatches (lower text)) random then 1 else -1)
            * (1 / 10) * ((min (exclamationCount text) 3 : ℕ) : ℚ)) ∧
    (0 < exclamationCount text →
      basePolarity (positiveMatches (lower text)) (negativeMatches (lower text)) random ≠ 0 →
      rawPolarity lower random text =
        basePolarity (positiveMatches (lower text)) (negativeMatches (lower text)) random
          + specSign (basePolarity (positiveMatches (lower text))
              (negativeMatches (lower text)) random)
            * (1 / 10) * ((min (exclamationCount text) 3 : ℕ) : ℚ)) := by
  unfold rawPolarity
  generalize basePolarity (positiveMatches (lower text)) (negativeMatches (lower text))
    random = base
  generalize exclamationCount text = bangs
  refine ⟨?_, ?_, ?_⟩
  · intro h0
    subst h0
    simp [adjustPolarity]
  · intro hb
    unfold adjustPolarity
    rw [if_pos hb]
    split_ifs <;> ring
  · intro hb hne
    unfold adjustPolarity specSign
    rw [if_pos hb]
    rcases lt_trichotomy base 0 with h | h | h
    · rw [if_neg (not_lt.mpr h.le), if_neg (not_lt.mpr h.le), if_pos h]
      ring
    · exact absurd h hne
    · rw [if_pos h, if_pos h]
      ring

/-- C4: for a text without `!` whose marker counts differ, the returned polarity is
`min(0.1 + 0.15 * posCount, 0.9)` when `posCount > negCount` and
`max(-0.1 - 0.15 * negCount, -0.9)` when `negCount > posCount`, and it is the same for
every two draws; each count is the number of distinct lexicon entries that occur as
substrings of the lower-cased text. -/
theorem C4_polarity_without_bangs (lower : Text → Text) (random random2 : ℚ) (text : Text)
    (hbang : exclamationCount text = 0)
    (hne : positiveMatches (lower text) ≠ negativeMatches (lower text)) :
    (negativeMatches (lower text) < positiveMatches (lower text) →
      (analyzeSentiment lower random text).polarity =
        min (1 / 10 + 15 / 100 * (positiveMatches (lower text) : ℚ)) (9 / 10)) ∧
    (positiveMatches (lower text) < negativeMatches (lower text) →
      (analyzeSentiment lower random text).polarity =
        max (-(1 / 10) - 15 / 100 * (negativeMatches (lower text) : ℚ)) (-(9 / 10))) ∧
    (analyzeSentiment lower random text).polarity =
      (analyzeSentiment lower random2 text).polarity ∧
    positiveMatches (lower text) =
      (positiveWords.toFinset.filter (fun w => w <:+: lower text)).card ∧
    negativeMatches (lower text) =
      (negativeWords.toFinset.filter (fun w => w <:+: lower text)).card := by
  have hcp : positiveMatches (lower text) =
      (positiveWords.toFinset.filter (fun w => w <:+: lower text)).card :=
    filter_includes_length _ positiveWords_nodup _
  have hcn : negativeMatches (lower text) =
      (negativeWords.toFinset.filter (fun w => w <:+: lower text)).card :=
    filter_includes_length _ negativeWords_nodup _
  have key : ∀ r : ℚ,
      (negativeMatches (lower text) < positiveMatches (lower text) →
        (analyzeSentiment lower r text).polarity =
          min (1 / 10 + 15 / 100 * (positiveMatches (lower text) : ℚ)) (9 / 10)) ∧
      (positiveMatches (lower text) < negativeMatches (lower text) →
        (analyzeSentiment lower r text).polarity =
          max (-(1 / 10) - 15 / 100 * (negativeMatches (lower text) : ℚ)) (-(9 / 10))) := by
    intro r
    constructor
    · intro h
      show toFixed3 (rawPolarity lower r text) = _
      have hraw := rawPolarity_of_lt lower r text h
      rw [hraw, toFixed3_natCast_div, ← hraw]
      unfold rawPolarity
      rw [hbang]
      unfold adjustPolarity basePolarity
      rw [if_neg (by omega), if_pos h, mul_comm]
    · intro h
      show toFixed3 (rawPolarity lower r text) = _
      have hraw := rawPolarity_of_gt lower r text h
      rw [hraw, toFixed3_neg_natCast_div, ← hraw]
      unfold rawPolarity
      rw [hbang]
      unfold adjustPolarity basePolarity
      rw [if_neg (by omega), if_neg (by omega), if_pos h, mul_comm]
  rcases Nat.lt_or_gt_of_ne hne with h | h
  · exact ⟨(key random).1, (key random).2, by rw [(key random).2 h, (key random2).2 h],
      hcp, hcn⟩
  · exact ⟨(key random).1, (key random).2, by rw [(key random).1 h, (key random2).1 h],
      hcp, hcn⟩

/-- Witness of `C4_polarity_without_bangs`: the example of the specification,
`This was terrible and a waste of time`, has two negative markers and polarity `-0.4`. -/
theorem C4_polarity_without_bangs_witness :
    exclamationCount "This was terrible and a waste of time".toList = 0 ∧
    positiveMatches (asciiLower "This was terrible and a waste of time".toList) = 0 ∧
    negativeMatches (asciiLower "This was terrible and a waste of time".toList) = 2 ∧
    (analyzeSentiment asciiLower 0 "This was terrible and a waste of time".toList).polarity =
      -(4 / 10) := by
  have hp : positiveMatches (asciiLower "This was terrible and a waste of time".toList) = 0 := by
    decide
  have hn : negativeMatches (asciiLower "This was terrible and a waste of time".toList) = 2 := by
    decide
  have h := (C4_polarity_without_bangs asciiLower 0 0
    "This was terrible and a waste of time".toList (by decide) (by rw [hp, hn]; decide)).2.1
    (by rw [hp, hn]; decide)
  refine ⟨by decide, hp, hn, ?_⟩
  rw [h, hn]
  norm_num

/-! ## Lemmas: the store -/

theorem jsSlice_zero_hundred {α : Type} (l : List α) : jsSlice l 0 100 = l.take 100 := by
  unfold jsSlice
  simp only [lt_irrefl, if_false, show ¬ ((100 : Int) < 0) by decide]
  have h0 : min (0 : Int) (l.length : Int) = 0 := min_eq_left (by omega)
  rw [h0]
  simp only [Int.toNat_zero, List.drop_zero, sub_zero]
  rcases le_total (100 : Int) (l.length : Int) with h | h
  · rw [min_eq_left h]
    rfl
  · rw [min_eq_right h, Int.toNat_ofNat]
    have hl : l.length ≤ 100 := by omega
    rw [List.take_of_length_le (le_refl _), List.take_of_length_le hl]

theorem jsSlice_page {α : Type} (l : List α) (page limit : Int) (hp : 1 ≤ page)
    (hl : 1 ≤ limit) :
    jsSlice l ((page - 1) * limit) ((page - 1) * limit + limit) =
      (l.drop ((page - 1) * limit).toNat).take limit.toNat := by
  have hs : 0 ≤ (page - 1) * limit := mul_nonneg (by omega) (by omega)
  unfold jsSlice
  simp only [if_neg (not_lt.mpr hs), if_neg (not_lt.mpr (show (0 : Int) ≤ (page - 1) * limit + limit by omega))]
  generalize (page - 1) * limit = start at hs
  rcases le_total start (l.length : Int) with h | h
  · rw [min_eq_left h]
    rcases le_total (start + limit) (l.length : Int) with h2 | h2
    · rw [min_eq_left h2]
      congr 1
      omega
    · rw [min_eq_right h2]
      apply List.take_eq_take.mpr
      rw [List.length_drop]
      omega
  · rw [min_eq_right h, min_eq_right (by omega)]
    have h1 : l.drop (l.length : Int).toNat = [] := by
      apply List.drop_of_length_le
      omega
    have h2 : l.drop start.toNat = [] := by
      apply List.drop_of_length_le
      omega
    rw [h1, h2]
    simp

theorem totalPolarity_eq_sum (items : List AnalysisResult) :
    totalPolarity items = (items.map (fun item => item.polarity)).sum := by
  unfold totalPolarity
  have h : ∀ (l : List AnalysisResult) (acc : ℚ),
      l.foldl (fun sum item => sum + item.polarity) acc
        = acc + (l.map (fun item => item.polarity)).sum := by
    intro l
    induction l with
    | nil => intro acc; simp
    | cons a t ih => intro acc; simp [ih, add_assoc]
  simpa using h items 0

theorem countSentiment_eq_countP (label : String) (items : List AnalysisResult) :
    countSentiment label items = items.countP (fun item => item.sentiment = label) := by
  unfold countSentiment
  rw [List.countP_eq_length_filter]
  congr 1

theorem updateDashboardStats_history (store : Store) (r : AnalysisResult) (now : Time) :
    (updateDashboardStats store r now).history = store.history := rfl

theorem foldl_updateDashboardStats_history (results : List AnalysisResult) (now : Time)
    (store : Store) :
    (results.foldl (fun st result => updateDashboardStats st result now) store).history
      = store.history := by
  induction results generalizing store with
  | nil => rfl
  | cons a t ih => simp only [List.foldl_cons]; rw [ih, updateDashboardStats_history]

namespace sentimentAPI

/-- A text that is not blank is accepted by `analyzeText`, and this is the outcome. -/
theorem analyzeText_ok (lower : Text → Text) (store : Store) (s : Text) (stamp : Stamp)
    (now : Time) (hs : trim s ≠ []) :
    analyzeText lower store (.string s) stamp now =
      .ok (updateDashboardStats
            (saveAnalysisHistory store
              (jsSlice (mkResult lower "analysis_" (trim s) stamp :: store.history) 0 100))
            (mkResult lower "analysis_" (trim s) stamp) now,
           mkResult lower "analysis_" (trim s) stamp) := by
  have hne : s ≠ [] := by
    intro h
    subst h
    exact hs rfl
  have h1 : (JsValue.string s).truthy = true := by
    cases s with
    | nil => exact absurd rfl hne
    | cons c cs => rfl
  have h2 : ((trim s).length == 0) = false := by
    cases h : trim s with
    | nil => exact absurd h hs
    | cons c cs => rfl
  simp only [analyzeText, h1, h2, Bool.not_true, Bool.or_self, Bool.false_eq_true, if_false]
  rfl

/-- A batch with at least one non-blank string is accepted by `analyzeBatch`, and this is
the outcome. -/
theorem analyzeBatch_ok (lower : Text → Text) (store : Store) (items : List JsValue)
    (stamps : Nat → Stamp) (now : Time) (hv : validTexts items ≠ []) :
    analyzeBatch lower store (.array items) stamps now =
      .ok ((batchResults lower stamps 0 (validTexts items)).foldl
              (fun st result => updateDashboardStats st result now)
              (saveAnalysisHistory store
                (jsSlice (batchResults lower stamps 0 (validTexts items) ++ store.history)
                  0 100)),
           { data := batchResults lower stamps 0 (validTexts items)
             summary :=
               { total := (batchResults lower stamps 0 (validTexts items)).length
                 positive := countSentiment "positive"
                   (batchResults lower stamps 0 (validTexts items))
                 negative := countSentiment "negative"
                   (batchResults lower stamps 0 (validTexts items))
                 neutral := countSentiment "neutral"
                   (batchResults lower stamps 0 (validTexts items)) } }) := by
  have hi : items ≠ [] := by
    intro h
    subst h
    exact hv rfl
  have h1 : (items.length == 0) = false := by
    cases items with
    | nil => exact absurd rfl hi
    | cons c cs => rfl
  have h2 : ((validTexts items).length == 0) = false := by
    cases h : validTexts items with
    | nil => exact absurd h hv
    | cons c cs => rfl
  simp only [analyzeBatch, h1, h2, Bool.false_eq_true, if_false]
  rfl

theorem batchResults_length (lower : Text → Text) (stamps : Nat → Stamp) (i : Nat)
    (texts : List Text) : (batchResults lower stamps i texts).length = texts.length := by
  induction texts generalizing i with
  | nil => rfl
  | cons a t ih => simp [batchResults, ih]

end sentimentAPI

theorem take_append_take {α : Type} (n : Nat) (a b : List α) :
    (a ++ b.take n).take n = (a ++ b).take n := by
  rw [List.take_append_eq_append_take, List.take_append_eq_append_take, List.take_take]
  congr 2
  omega

/-- A run of accepted `analyzeText` calls from a store within capacity: it succeeds,
returns the results in call order, and leaves the newest 100 of results and prior
history. -/
theorem analyzeTextAll_ok (lower : Text → Text) (calls : List (Text × Stamp × Time))
    (hvalid : ∀ c ∈ calls, trim c.1 ≠ []) (store : Store)
    (hlen : store.history.length ≤ 100) :
    ∃ store1, analyzeTextAll lower store calls =
        .ok (store1,
          calls.map (fun c => sentimentAPI.mkResult lower "analysis_" (trim c.1) c.2.1)) ∧
      store1.history =
        ((calls.map (fun c =>
            sentimentAPI.mkResult lower "analysis_" (trim c.1) c.2.1)).reverse
          ++ store.history).take 100 := by
  induction calls generalizing store with
  | nil =>
    refine ⟨store, rfl, ?_⟩
    simp only [List.map_nil, List.reverse_nil, List.nil_append]
    rw [List.take_of_length_le hlen]
  | cons c rest ih =>
    have hc : trim c.1 ≠ [] := hvalid c (List.mem_cons_self _ _)
    have hstep := sentimentAPI.analyzeText_ok lower store c.1 c.2.1 c.2.2 hc
    have hlen1 : (updateDashboardStats
        (saveAnalysisHistory store
          (jsSlice (sentimentAPI.mkResult lower "analysis_" (trim c.1) c.2.1 :: store.history)
            0 100))
        (sentimentAPI.mkResult lower "analysis_" (trim c.1) c.2.1) c.2.2).history.length
          ≤ 100 := by
      show (jsSlice _ 0 100).length ≤ 100
      rw [jsSlice_zero_hundred]
      exact List.length_take_le _ _
    obtain ⟨store2, hrun, hhist⟩ :=
      ih (fun d hd => hvalid d (List.mem_cons_of_mem _ hd)) _ hlen1
    refine ⟨store2, ?_, ?_⟩
    · simp only [analyzeTextAll, hstep, hrun, List.map_cons]
    · rw [hhist]
      show (_ ++ jsSlice _ 0 100).take 100 = _
      rw [jsSlice_zero_hundred, take_append_take]
      simp only [List.map_cons, List.reverse_cons, List.append_assoc, List.singleton_append]

theorem foldl_cons_eq_reverse_append {α : Type} (l h : List α) :
    l.foldl (fun acc x => x :: acc) h = l.reverse ++ h := by
  induction l generalizing h with
  | nil => rfl
  | cons a t ih => simp [ih]

theorem specAppendMany_reverse (history results : List AnalysisResult) :
    specAppendMany history results.reverse = (results ++ history).take 100 := by
  unfold specAppendMany
  rw [foldl_cons_eq_reverse_append, List.reverse_reverse]

/-! ## Claims about the history store -/

/-- C5, as stated, fails: a batch of the two texts `good` and `bad` on an empty history
is stored in input order, `good` first, whereas inserting the two results at the front
one at a time in that order leaves `bad` first. -/
theorem C5_batch_keeps_input_order :
    ∃ store response,
      sentimentAPI.analyzeBatch asciiLower Store.empty
        (.array [.string "good".toList, .string "bad".toList])
        (fun _ => { random := 0, timestamp := 0, idSuffix := "" }) 0 = .ok (store, response) ∧
      (response.data.map (fun r => r.text)) = ["good".toList, "bad".toList] ∧
      store.history = response.data ∧
      store.history ≠ specAppendMany Store.empty.history response.data := by
  have hv : sentimentAPI.validTexts [.string "good".toList, .string "bad".toList] ≠ [] := by
    decide
  refine ⟨_, _, sentimentAPI.analyzeBatch_ok asciiLower Store.empty _ _ 0 hv, ?_, ?_, ?_⟩
  · rfl
  · rw [foldl_updateDashboardStats_history]
    show jsSlice _ 0 100 = _
    rw [jsSlice_zero_hundred]
    rfl
  · rw [foldl_updateDashboardStats_history]
    show jsSlice _ 0 100 ≠ _
    rw [jsSlice_zero_hundred]
    intro h
    have ht := congrArg (fun l => l.map (fun r => r.text)) h
    revert ht
    decide

/-- C5, amended: the history stored by `analyzeBatch` is the first 100 entries of the
batch results, in input order, followed by the prior history; it equals what
front-inserting the results one at a time in the reverse of the given order and trimming
once to 100 gives, and for a batch of 100 results or more the stored history is the first
100 results of the batch, so that the evicted batch members are the last ones of the
input. -/
theorem C5_bulk_append (lower : Text → Text) (store : Store) (items : List JsValue)
    (stamps : Nat → Stamp) (now : Time) (hv : sentimentAPI.validTexts items ≠ []) :
    ∃ store1 response,
      sentimentAPI.analyzeBatch lower store (.array items) stamps now = .ok (store1, response) ∧
      store1.history = (response.data ++ store.history).take 100 ∧
      store1.history = specAppendMany store.history response.data.reverse ∧
      (100 ≤ response.data.length → store1.history = response.data.take 100) := by
  refine ⟨_, _, sentimentAPI.analyzeBatch_ok lower store items stamps now hv, ?_, ?_, ?_⟩
  · rw [foldl_updateDashboardStats_history]
    show jsSlice _ 0 100 = _
    rw [jsSlice_zero_hundred]
  · rw [foldl_updateDashboardStats_history, specAppendMany_reverse]
    show jsSlice _ 0 100 = _
    rw [jsSlice_zero_hundred]
  · intro h
    rw [foldl_updateDashboardStats_history]
    show jsSlice _ 0 100 = _
    rw [jsSlice_zero_hundred, List.take_append_of_le_length h]

/-- Witness of `C5_bulk_append`: a batch of two texts, one blank entry dropped. -/
theorem C5_bulk_append_witness :
    sentimentAPI.validTexts
      [.string "good".toList, .string " ".toList, .string "bad".toList] ≠ [] ∧
    ∃ store1 response,
      sentimentAPI.analyzeBatch asciiLower Store.empty
        (.array [.string "good".toList, .string " ".toList, .string "bad".toList])
        (fun _ => { random := 0, timestamp := 0, idSuffix := "" }) 7
          = .ok (store1, response) ∧
      store1.history = (response.data ++ Store.empty.history).take 100 ∧
      store1.history = specAppendMany Store.empty.history response.data.reverse ∧
      (100 ≤ response.data.length → store1.history = response.data.take 100) :=
  ⟨by decide, C5_bulk_append asciiLower Store.empty _ _ 7 (by decide)⟩

theorem rawPolarity_good : rawPolarity asciiLower 0 "good".toList = 25 / 100 := by
  have hp : positiveMatches (asciiLower "good".toList) = 1 := by decide
  have hn : negativeMatches (asciiLower "good".toList) = 0 := by decide
  have hb : exclamationCount "good".toList = 0 := by decide
  rw [rawPolarity_of_lt asciiLower 0 _ (by rw [hp, hn]; decide), hp, hb]
  norm_num

theorem sentiment_good : (analyzeSentiment asciiLower 0 "good".toList).sentiment = "neutral" := by
  show classify (rawPolarity asciiLower 0 "good".toList) = "neutral"
  rw [rawPolarity_good, classify_neutral_iff]
  norm_num

theorem countSentiment_one (label : String) (r : AnalysisResult) (h : r.sentiment = label) :
    countSentiment label [r] = 1 := by
  simp [countSentiment, h]

theorem countSentiment_two (label : String) (r : AnalysisResult) (h : r.sentiment = label) :
    countSentiment label [r, r] = 2 := by
  simp [countSentiment, h]

/-- After any accepted `analyzeText`, the persisted stats that an export returns count one
analysis more than the export lists. -/
theorem exportAnalysisData_after_analyzeText (lower : Text → Text) (store store1 : Store)
    (s : Text) (stamp : Stamp) (now now2 : Time) (result : AnalysisResult) (hs : trim s ≠ [])
    (h : sentimentAPI.analyzeText lower store (.string s) stamp now = .ok (store1, result)) :
    (sentimentAPI.exportAnalysisData store1 now2).statistics.totalAnalysis
      = (sentimentAPI.exportAnalysisData store1 now2).metadata.totalRecords + 1 := by
  rw [sentimentAPI.analyzeText_ok lower store s stamp now hs] at h
  injection h with h
  injection h with h1 h2
  subst h1
  rfl

/-- C6, evaluated where the code departs from it: after `analyzeText("good")` on the
empty store, a reachable state, the export lists one analysis and `totalRecords = 1`,
while its statistics say `totalAnalysis = 2` and `neutral = 2`. -/
theorem C6_export_counts_new_result_twice :
    ∃ store result,
      sentimentAPI.analyzeText asciiLower Store.empty (.string "good".toList)
        { random := 0, timestamp := 0, idSuffix := "" } 0 = .ok (store, result) ∧
      Reachable asciiLower store ∧
      (sentimentAPI.exportAnalysisData store 1).analyses = [result] ∧
      (sentimentAPI.exportAnalysisData store 1).metadata.totalRecords = 1 ∧
      countSentiment "neutral" (sentimentAPI.exportAnalysisData store 1).analyses = 1 ∧
      (sentimentAPI.exportAnalysisData store 1).statistics.totalAnalysis = 2 ∧
      (sentimentAPI.exportAnalysisData store 1).statistics.neutral = 2 := by
  have hok := sentimentAPI.analyzeText_ok asciiLower Store.empty "good".toList
    { random := 0, timestamp := 0, idSuffix := "" } 0 (by decide)
  have hs : (sentimentAPI.mkResult asciiLower "analysis_" (trim "good".toList)
      { random := 0, timestamp := 0, idSuffix := "" }).sentiment = "neutral" := sentiment_good
  obtain ⟨r, hr⟩ : ∃ r, sentimentAPI.mkResult asciiLower "analysis_" (trim "good".toList)
      { random := 0, timestamp := 0, idSuffix := "" } = r := ⟨_, rfl⟩
  rw [hr] at hok hs
  have hh : jsSlice (r :: Store.empty.history) 0 100 = [r] := by
    rw [jsSlice_zero_hundred]
    rfl
  refine ⟨_, _, hok, Reachable.analyzeText Reachable.empty hok, ?_, ?_, ?_, ?_, ?_⟩
  · exact hh
  · show (jsSlice (r :: Store.empty.history) 0 100).length = 1
    rw [hh]
    rfl
  · show countSentiment "neutral" (jsSlice (r :: Store.empty.history) 0 100) = 1
    rw [hh]
    exact countSentiment_one _ _ hs
  · show (r :: jsSlice (r :: Store.empty.history) 0 100).length = 2
    rw [hh]
    rfl
  · show countSentiment "neutral" (r :: jsSlice (r :: Store.empty.history) 0 100) = 2
    rw [hh]
    exact countSentiment_two _ _ hs

/-- C7: `n` accepted `analyzeText` calls on the empty store succeed, and the stored
history is then the last `min(n, 100)` results, newest first. -/
theorem C7_history_after_calls (lower : Text → Text) (calls : List (Text × Stamp × Time))
    (hvalid : ∀ c ∈ calls, trim c.1 ≠ []) :
    ∃ store, analyzeTextAll lower Store.empty calls =
        .ok (store,
          calls.map (fun c => sentimentAPI.mkResult lower "analysis_" (trim c.1) c.2.1)) ∧
      store.history =
        ((calls.map (fun c =>
            sentimentAPI.mkResult lower "analysis_" (trim c.1) c.2.1)).reverse).take 100 ∧
      store.history.length = min calls.length 100 := by
  obtain ⟨store, hrun, hhist⟩ :=
    analyzeTextAll_ok lower calls hvalid Store.empty (by decide)
  have hh : store.history =
      ((calls.map (fun c =>
          sentimentAPI.mkResult lower "analysis_" (trim c.1) c.2.1)).reverse).take 100 := by
    rw [hhist]
    show (_ ++ []).take 100 = _
    rw [List.append_nil]
  refine ⟨store, hrun, hh, ?_⟩
  rw [hh, List.length_take, List.length_reverse, List.length_map, min_comm]

/-- Witness of `C7_history_after_calls`: after 150 calls the history holds 100 records,
the first of which is the result of the last call, stamped `149`, and the last of which is
the result of the 51st call, stamped `50`. -/
theorem C7_history_after_calls_witness :
    (∀ c ∈ (List.range 150).map (fun i =>
        ("good".toList, ({ random := 0, timestamp := i, idSuffix := "" } : Stamp), i)),
      trim c.1 ≠ []) ∧
    ∃ store results, analyzeTextAll asciiLower Store.empty
        ((List.range 150).map (fun i =>
          ("good".toList, ({ random := 0, timestamp := i, idSuffix := "" } : Stamp), i)))
        = .ok (store, results) ∧
      store.history.length = 100 ∧
      store.history.head?.map (fun r => r.timestamp) = some 149 ∧
      store.history.getLast?.map (fun r => r.timestamp) = some 50 := by
  have hvalid : ∀ c ∈ (List.range 150).map (fun i =>
      ("good".toList, ({ random := 0, timestamp := i, idSuffix := "" } : Stamp), i)),
      trim c.1 ≠ [] := by
    intro c hc
    rw [List.mem_map] at hc
    obtain ⟨i, _, rfl⟩ := hc
    show trim "good".toList ≠ []
    decide
  obtain ⟨store, hrun, hhist, hlen⟩ := C7_history_after_calls asciiLower _ hvalid
  refine ⟨hvalid, store, _, hrun, ?_, ?_, ?_⟩
  · rw [hlen, List.length_map, List.length_range]
    rfl
  · rw [hhist]
    decide
  · rw [hhist]
    decide

/-- C8: on any prior history, an accepted `analyzeText` stores the first 100 entries of
the result followed by the prior history, and an accepted `analyzeBatch` stores the first
100 entries of the results followed by the prior history; the stored history has at most
100 entries and is a prefix of the untrimmed list, so only entries at the tail are
dropped. -/
theorem C8_capacity_trim (lower : Text → Text) (store : Store) (s : Text) (stamp : Stamp)
    (items : List JsValue) (stamps : Nat → Stamp) (now : Time)
    (hs : trim s ≠ []) (hv : sentimentAPI.validTexts items ≠ []) :
    (∃ store1 result,
      sentimentAPI.analyzeText lower store (.string s) stamp now = .ok (store1, result) ∧
      store1.history = (result :: store.history).take 100 ∧
      store1.history.length ≤ 100 ∧
      store1.history <+: result :: store.history) ∧
    (∃ store1 response,
      sentimentAPI.analyzeBatch lower store (.array items) stamps now = .ok (store1, response) ∧
      store1.history = (response.data ++ store.history).take 100 ∧
      store1.history.length ≤ 100 ∧
      store1.history <+: response.data ++ store.history) := by
  constructor
  · refine ⟨_, _, sentimentAPI.analyzeText_ok lower store s stamp now hs, ?_, ?_, ?_⟩
    · show jsSlice _ 0 100 = _
      rw [jsSlice_zero_hundred]
    · show (jsSlice _ 0 100).length ≤ 100
      rw [jsSlice_zero_hundred]
      exact List.length_take_le _ _
    · show jsSlice _ 0 100 <+: _
      rw [jsSlice_zero_hundred]
      exact List.take_prefix _ _
  · refine ⟨_, _, sentimentAPI.analyzeBatch_ok lower store items stamps now hv, ?_, ?_, ?_⟩
    · rw [foldl_updateDashboardStats_history]
      show jsSlice _ 0 100 = _
      rw [jsSlice_zero_hundred]
    · rw [foldl_updateDashboardStats_history]
      show (jsSlice _ 0 100).length ≤ 100
      rw [jsSlice_zero_hundred]
      exact List.length_take_le _ _
    · rw [foldl_updateDashboardStats_history]
      show jsSlice _ 0 100 <+: _
      rw [jsSlice_zero_hundred]
      exact List.take_prefix _ _

/-- Witness of `C8_capacity_trim`: one text and one batch on the empty store. -/
theorem C8_capacity_trim_witness :
    trim " good ".toList ≠ [] ∧
    sentimentAPI.validTexts [.string "good".toList, .number 3, .string "bad".toList] ≠ [] ∧
    (∃ store1 result,
      sentimentAPI.analyzeText asciiLower Store.empty (.string " good ".toList)
        { random := 0, timestamp := 0, idSuffix := "" } 0 = .ok (store1, result) ∧
      store1.history.length ≤ 100) ∧
    (∃ store1 response,
      sentimentAPI.analyzeBatch asciiLower Store.empty
        (.array [.string "good".toList, .number 3, .string "bad".toList])
        (fun _ => { random := 0, timestamp := 0, idSuffix := "" }) 0
          = .ok (store1, response) ∧
      store1.history.length ≤ 100) := by
  have h := C8_capacity_trim asciiLower Store.empty " good ".toList
    { random := 0, timestamp := 0, idSuffix := "" }
    [.string "good".toList, .number 3, .string "bad".toList]
    (fun _ => { random := 0, timestamp := 0, idSuffix := "" }) 0 (by decide) (by decide)
  obtain ⟨⟨s1, r1, h1, _, h1len, _⟩, ⟨s2, r2, h2, _, h2len, _⟩⟩ := h
  exact ⟨by decide, by decide, ⟨s1, r1, h1, h1len⟩, ⟨s2, r2, h2, h2len⟩⟩

theorem toFixed3_zero : toFixed3 0 = 0 := by
  have h := toFixed3_intCast_div 0
  simpa using h

theorem countP_sentiments_add (items : List AnalysisResult)
    (hsent : ∀ r ∈ items,
      r.sentiment = "positive" ∨ r.sentiment = "negative" ∨ r.sentiment = "neutral") :
    items.countP (fun item => item.sentiment = "positive")
      + items.countP (fun item => item.sentiment = "negative")
      + items.countP (fun item => item.sentiment = "neutral") = items.length := by
  induction items with
  | nil => rfl
  | cons a t ih =>
    have iht := ih (fun r hr => hsent r (List.mem_cons_of_mem _ hr))
    have ha := hsent a (List.mem_cons_self _ _)
    simp only [List.countP_cons, List.length_cons]
    rcases ha with h | h | h <;> rw [h] <;> simp <;> omega

/-- C9: whatever stats record is persisted, `getDashboardStats` returns the length of the
stored history as `totalAnalysis`, the number of records of each sentiment as
`positive`, `negative` and `neutral`, which add up to `totalAnalysis`, and as
`averagePolarity` the mean of the polarities rounded to 3 decimals, that is a whole
number of thousandths within `0.0005` of the mean, `0` for an empty history. When the
mean lies exactly half-way between two thousandths, which of the two is returned is left
open. -/
theorem C9_stats_from_history (store : Store) (now : Time)
    (hsent : ∀ r ∈ store.history,
      r.sentiment = "positive" ∨ r.sentiment = "negative" ∨ r.sentiment = "neutral") :
    (sentimentAPI.getDashboardStats store now).2.totalAnalysis = store.history.length ∧
    (sentimentAPI.getDashboardStats store now).2.positive =
      store.history.countP (fun r => r.sentiment = "positive") ∧
    (sentimentAPI.getDashboardStats store now).2.negative =
      store.history.countP (fun r => r.sentiment = "negative") ∧
    (sentimentAPI.getDashboardStats store now).2.neutral =
      store.history.countP (fun r => r.sentiment = "neutral") ∧
    (sentimentAPI.getDashboardStats store now).2.positive
      + (sentimentAPI.getDashboardStats store now).2.negative
      + (sentimentAPI.getDashboardStats store now).2.neutral
        = (sentimentAPI.getDashboardStats store now).2.totalAnalysis ∧
    (store.history = [] → (sentimentAPI.getDashboardStats store now).2.averagePolarity = 0) ∧
    (store.history ≠ [] →
      (∃ k : ℤ,
        1000 * (sentimentAPI.getDashboardStats store now).2.averagePolarity = (k : ℚ)) ∧
      |(sentimentAPI.getDashboardStats store now).2.averagePolarity
          - (store.history.map (fun r => r.polarity)).sum / (store.history.length : ℚ)|
        ≤ 5 / 10000) := by
  have hpos : (sentimentAPI.getDashboardStats store now).2.positive =
      store.history.countP (fun r => r.sentiment = "positive") :=
    countSentiment_eq_countP _ _
  have hneg : (sentimentAPI.getDashboardStats store now).2.negative =
      store.history.countP (fun r => r.sentiment = "negative") :=
    countSentiment_eq_countP _ _
  have hneu : (sentimentAPI.getDashboardStats store now).2.neutral =
      store.history.countP (fun r => r.sentiment = "neutral") :=
    countSentiment_eq_countP _ _
  have htot : (sentimentAPI.getDashboardStats store now).2.totalAnalysis
      = store.history.length := rfl
  refine ⟨htot, hpos, hneg, hneu, ?_, ?_, ?_⟩
  · rw [hpos, hneg, hneu, htot]
    exact countP_sentiments_add _ hsent
  · intro h
    show toFixed3 (if (getAnalysisHistory store).length > 0 then _ else 0) = 0
    have h0 : ¬ (getAnalysisHistory store).length > 0 := by
      show ¬ store.history.length > 0
      rw [h]
      decide
    rw [if_neg h0, toFixed3_zero]
  · intro h
    have h0 : (getAnalysisHistory store).length > 0 := List.length_pos.mpr h
    have havg : (sentimentAPI.getDashboardStats store now).2.averagePolarity =
        toFixed3 ((store.history.map (fun r => r.polarity)).sum
          / (store.history.length : ℚ)) := by
      show toFixed3 (if (getAnalysisHistory store).length > 0 then _ else 0) = _
      rw [if_pos h0, totalPolarity_eq_sum]
      rfl
    rw [havg]
    refine ⟨toFixed3_thousandths _, ?_⟩
    have hc := toFixed3_close
      ((store.history.map (fun r => r.polarity)).sum / (store.history.length : ℚ))
    have he : (1 : ℚ) / 2000 = 5 / 10000 := by norm_num
    rw [he] at hc
    exact hc

/-- Witness of `C9_stats_from_history`: three records, one of each sentiment, under a
persisted stats record that is out of date; the mean `1/12` is returned as `0.083`. -/
theorem C9_stats_from_history_witness :
    (sentimentAPI.getDashboardStats
      { history :=
          [{ text := "a".toList, polarity := 4 / 10, sentiment := "positive",
             subjectivity := 2 / 10, timestamp := 2, id := "c", wordCount := 1 },
           { text := "b".toList, polarity := -(4 / 10), sentiment := "negative",
             subjectivity := 2 / 10, timestamp := 1, id := "b", wordCount := 1 },
           { text := "c".toList, polarity := 25 / 100, sentiment := "neutral",
             subjectivity := 2 / 10, timestamp := 0, id := "a", wordCount := 1 }]
        stats := some { totalAnalysis := 99, positive := 0, negative := 0, neutral := 0,
                        averagePolarity := 1, lastUpdated := 0 } } 5).2.totalAnalysis = 3 ∧
    (sentimentAPI.getDashboardStats
      { history :=
          [{ text := "a".toList, polarity := 4 / 10, sentiment := "positive",
             subjectivity := 2 / 10, timestamp := 2, id := "c", wordCount := 1 },
           { text := "b".toList, polarity := -(4 / 10), sentiment := "negative",
             subjectivity := 2 / 10, timestamp := 1, id := "b", wordCount := 1 },
           { text := "c".toList, polarity := 25 / 100, sentiment := "neutral",
             subjectivity := 2 / 10, timestamp := 0, id := "a", wordCount := 1 }]
        stats := some { totalAnalysis := 99, positive := 0, negative := 0, neutral := 0,
                        averagePolarity := 1, lastUpdated := 0 } } 5).2.averagePolarity
      = 83 / 1000 := by
  have h := C9_stats_from_history
    { history :=
        [{ text := "a".toList, polarity := 4 / 10, sentiment := "positive",
           subjectivity := 2 / 10, timestamp := 2, id := "c", wordCount := 1 },
         { text := "b".toList, polarity := -(4 / 10), sentiment := "negative",
           subjectivity := 2 / 10, timestamp := 1, id := "b", wordCount := 1 },
         { text := "c".toList, polarity := 25 / 100, sentiment := "neutral",
           subjectivity := 2 / 10, timestamp := 0, id := "a", wordCount := 1 }]
      stats := some { totalAnalysis := 99, positive := 0, negative := 0, neutral := 0,
                      averagePolarity := 1, lastUpdated := 0 } } 5
    (by
      intro r hr
      simp only [List.mem_cons, List.mem_singleton, List.not_mem_nil, or_false] at hr
      rcases hr with rfl | rfl | rfl
      · exact Or.inl rfl
      · exact Or.inr (Or.inl rfl)
      · exact Or.inr (Or.inr rfl))
  refine ⟨h.1, ?_⟩
  obtain ⟨⟨k, hk⟩, hclose⟩ := h.2.2.2.2.2.2 (by simp)
  simp only [List.map_cons, List.map_nil, List.sum_cons, List.sum_nil, List.length_cons,
    List.length_nil] at hclose
  rw [abs_le] at hclose
  obtain ⟨hlo, hhi⟩ := hclose
  have hmean : ((4 : ℚ) / 10 + (-(4 / 10) + (25 / 100 + 0))) / ((0 + 1 + 1 + 1 : ℕ) : ℚ)
      = 1 / 12 := by norm_num
  rw [hmean] at hlo hhi
  have h82 : (82 : ℚ) < (k : ℚ) := by linarith
  have h84 : (k : ℚ) < 84 := by linarith
  have hk82 : (82 : ℤ) < k := by exact_mod_cast h82
  have hk84 : k < (84 : ℤ) := by exact_mod_cast h84
  have hk83 : k = 83 := by omega
  rw [hk83] at hk
  have hq : ((83 : ℤ) : ℚ) = 83 := by norm_num
  rw [hq] at hk
  linarith

/-- The ceiling of `total / limit` for a positive integer `limit`. -/
theorem ceil_div_bounds (total : Nat) (limit : Int) (hl : 1 ≤ limit) :
    (total : Int) ≤ ⌈(total : ℚ) / (limit : ℚ)⌉ * limit ∧
    ⌈(total : ℚ) / (limit : ℚ)⌉ * limit < (total : Int) + limit := by
  have hlq : (0 : ℚ) < (limit : ℚ) := by exact_mod_cast (show (0 : Int) < limit by omega)
  constructor
  · have h1 : (total : ℚ) / (limit : ℚ) ≤ (⌈(total : ℚ) / (limit : ℚ)⌉ : ℚ) := Int.le_ceil _
    rw [div_le_iff₀ hlq] at h1
    exact_mod_cast h1
  · have h1 : (⌈(total : ℚ) / (limit : ℚ)⌉ : ℚ) < (total : ℚ) / (limit : ℚ) + 1 :=
      Int.ceil_lt_add_one _
    have h2 : (⌈(total : ℚ) / (limit : ℚ)⌉ : ℚ) * (limit : ℚ) < (total : ℚ) + (limit : ℚ) := by
      have h3 := mul_lt_mul_of_pos_right h1 hlq
      have h4 : ((total : ℚ) / (limit : ℚ) + 1) * (limit : ℚ) = (total : ℚ) + (limit : ℚ) := by
        field_simp
      rwa [h4] at h3
    exact_mod_cast h2

/-- C10: for integers `page >= 1` and `limit >= 1`, the page holds the history entries
at the indices from `(page - 1) * limit` up to, not including, `page * limit`, in stored
order; it is empty when `(page - 1) * limit` is at least the length of the history; and
the pagination echoes `page` and `limit` with `total` the length of the history and
`totalPages` the ceiling of `total / limit`. -/
theorem C10_history_page (store : Store) (page limit : Int) (hp : 1 ≤ page) (hl : 1 ≤ limit) :
    (sentimentAPI.getAnalysisHistory store page limit).data =
      (store.history.drop ((page - 1) * limit).toNat).take limit.toNat ∧
    (∀ i : Nat, (i : Int) < limit →
      (sentimentAPI.getAnalysisHistory store page limit).data[i]? =
        store.history[((page - 1) * limit).toNat + i]?) ∧
    (sentimentAPI.getAnalysisHistory store page limit).data.length ≤ limit.toNat ∧
    ((store.history.length : Int) ≤ (page - 1) * limit →
      (sentimentAPI.getAnalysisHistory store page limit).data = []) ∧
    (sentimentAPI.getAnalysisHistory store page limit).pagination.page = page ∧
    (sentimentAPI.getAnalysisHistory store page limit).pagination.limit = limit ∧
    (sentimentAPI.getAnalysisHistory store page limit).pagination.total
      = store.history.length ∧
    (sentimentAPI.getAnalysisHistory store page limit).pagination.totalPages
      = ⌈(store.history.length : ℚ) / (limit : ℚ)⌉ ∧
    (store.history.length : Int)
      ≤ (sentimentAPI.getAnalysisHistory store page limit).pagination.totalPages * limit ∧
    (sentimentAPI.getAnalysisHistory store page limit).pagination.totalPages * limit
      < (store.history.length : Int) + limit := by
  have hdata : (sentimentAPI.getAnalysisHistory store page limit).data =
      (store.history.drop ((page - 1) * limit).toNat).take limit.toNat :=
    jsSlice_page store.history page limit hp hl
  have hs : 0 ≤ (page - 1) * limit := mul_nonneg (by omega) (by omega)
  refine ⟨hdata, ?_, ?_, ?_, rfl, rfl, rfl, rfl,
    (ceil_div_bounds _ limit hl).1, (ceil_div_bounds _ limit hl).2⟩
  · intro i hi
    rw [hdata, List.getElem?_take_of_lt (by omega), List.getElem?_drop]
  · rw [hdata]
    exact List.length_take_le _ _
  · intro h
    rw [hdata, List.drop_of_length_le (by omega), List.take_nil]

/-- Witness of `C10_history_page`: on a history of 25 records, page 3 of limit 10 holds
5 records, page 10 is empty, and both report 3 pages. -/
theorem C10_history_page_witness :
    (1 : Int) ≤ 3 ∧ (1 : Int) ≤ 10 ∧
    (sentimentAPI.getAnalysisHistory
      { history := (List.range 25).map (fun i =>
          { text := "ok".toList, polarity := 0, sentiment := "neutral", subjectivity := 2 / 10,
            timestamp := i, id := "", wordCount := 1 })
        stats := none } 3 10).data.length = 5 ∧
    (sentimentAPI.getAnalysisHistory
      { history := (List.range 25).map (fun i =>
          { text := "ok".toList, polarity := 0, sentiment := "neutral", subjectivity := 2 / 10,
            timestamp := i, id := "", wordCount := 1 })
        stats := none } 3 10).pagination.totalPages = 3 ∧
    (sentimentAPI.getAnalysisHistory
      { history := (List.range 25).map (fun i =>
          { text := "ok".toList, polarity := 0, sentiment := "neutral", subjectivity := 2 / 10,
            timestamp := i, id := "", wordCount := 1 })
        stats := none } 10 10).data = [] ∧
    (sentimentAPI.getAnalysisHistory
      { history := (List.range 25).map (fun i =>
          { text := "ok".toList, polarity := 0, sentiment := "neutral", subjectivity := 2 / 10,
            timestamp := i, id := "", wordCount := 1 })
        stats := none } 10 10).pagination.totalPages = 3 := by
  have h3 := C10_history_page
    { history := (List.range 25).map (fun i =>
        { text := "ok".toList, polarity := 0, sentiment := "neutral", subjectivity := 2 / 10,
          timestamp := i, id := "", wordCount := 1 })
      stats := none } 3 10 (by decide) (by decide)
  have h10 := C10_history_page
    { history := (List.range 25).map (fun i =>
        { text := "ok".toList, polarity := 0, sentiment := "neutral", subjectivity := 2 / 10,
          timestamp := i, id := "", wordCount := 1 })
      stats := none } 10 10 (by decide) (by decide)
  obtain ⟨hd3, _, _, _, _, _, _, _, hlo3, hhi3⟩ := h3
  obtain ⟨_, _, _, he10, _, _, _, _, hlo10, hhi10⟩ := h10
  simp only [List.length_map, List.length_range] at hlo3 hhi3 hlo10 hhi10 he10
  refine ⟨by decide, by decide, ?_, by omega, he10 (by decide), by omega⟩
  rw [hd3]
  simp [List.length_take, List.length_drop]

/-! ## Claims about search, validation and batches -/

/-- C11: `searchAnalyses` returns, in stored order, exactly the records whose lower-cased
text contains the lower-cased query and whose sentiment equals the filter unless the
filter is `all`; the summary gives their number and echoes the query and the filter; the
store is left as it was. -/
theorem C11_search_filter (lower : Text → Text) (store : Store) (query : Text)
    (sentimentFilter : String) :
    (sentimentAPI.searchAnalyses lower store query sentimentFilter).2.data =
      store.history.filter (fun r =>
        decide (lower query <:+: lower r.text) &&
          (decide (sentimentFilter = "all") || decide (r.sentiment = sentimentFilter))) ∧
    (sentimentAPI.searchAnalyses lower store query sentimentFilter).2.data.Sublist
      store.history ∧
    (∀ r, r ∈ (sentimentAPI.searchAnalyses lower store query sentimentFilter).2.data ↔
      r ∈ store.history ∧ lower query <:+: lower r.text ∧
        (sentimentFilter = "all" ∨ r.sentiment = sentimentFilter)) ∧
    (sentimentAPI.searchAnalyses lower store query sentimentFilter).2.summary.total =
      (sentimentAPI.searchAnalyses lower store query sentimentFilter).2.data.length ∧
    (sentimentAPI.searchAnalyses lower store query sentimentFilter).2.summary.query = query ∧
    (sentimentAPI.searchAnalyses lower store query sentimentFilter).2.summary.sentimentFilter
      = sentimentFilter ∧
    (sentimentAPI.searchAnalyses lower store query sentimentFilter).1 = store := by
  have hdata : (sentimentAPI.searchAnalyses lower store query sentimentFilter).2.data =
      store.history.filter (fun r =>
        decide (lower query <:+: lower r.text) &&
          (decide (sentimentFilter = "all") || decide (r.sentiment = sentimentFilter))) := by
    show store.history.filter _ = _
    apply List.filter_congr
    intro r _
    have h1 : includes (lower r.text) (lower query) = decide (lower query <:+: lower r.text) := by
      rw [Bool.eq_iff_iff, includes_iff_infix]
      simp
    simp only [h1, beq_iff_eq]
    congr 1
  refine ⟨hdata, ?_, ?_, rfl, rfl, rfl, rfl⟩
  · rw [hdata]
    exact List.filter_sublist _
  · intro r
    rw [hdata, List.mem_filter]
    simp

namespace sentimentAPI

/-- A blank string is rejected by `analyzeText`. -/
theorem analyzeText_blank (lower : Text → Text) (store : Store) (s : Text) (stamp : Stamp)
    (now : Time) (hs : trim s = []) :
    analyzeText lower store (.string s) stamp now = .error "Invalid text input" := by
  have h2 : ((trim s).length == 0) = true := by
    rw [hs]
    rfl
  simp only [analyzeText, h2, Bool.or_true, if_true]

/-- `analyzeText` throws exactly on the values that are not a string with a non-blank
trim. -/
theorem analyzeText_error_iff (lower : Text → Text) (store : Store) (text : JsValue)
    (stamp : Stamp) (now : Time) :
    (∃ e, analyzeText lower store text stamp now = .error e) ↔
      ∀ s, text = .string s → trim s = [] := by
  constructor
  · rintro ⟨e, he⟩ s hs
    subst hs
    by_contra hne
    rw [analyzeText_ok lower store s stamp now hne] at he
    exact absurd he (by simp)
  · intro h
    cases text with
    | string s => exact ⟨_, analyzeText_blank lower store s stamp now (h s rfl)⟩
    | undefined => exact ⟨_, rfl⟩
    | null => exact ⟨_, rfl⟩
    | boolean b => exact ⟨_, rfl⟩
    | number x => exact ⟨_, rfl⟩
    | array items => exact ⟨_, rfl⟩
    | object fields => exact ⟨_, rfl⟩

/-- The kept texts of a batch are not empty exactly when some element is a string with a
non-blank trim. -/
theorem validTexts_ne_nil_iff (items : List JsValue) :
    validTexts items ≠ [] ↔ ∃ s, JsValue.string s ∈ items ∧ trim s ≠ [] := by
  unfold validTexts
  rw [Ne, List.filter_eq_nil_iff]
  constructor
  · intro h
    by_contra hcon
    apply h
    intro t ht
    rw [List.mem_map] at ht
    obtain ⟨v, hv, rfl⟩ := ht
    cases v with
    | string s =>
      have hs : trim s = [] := by
        by_contra hne
        exact hcon ⟨s, hv, hne⟩
      simp [hs]
    | undefined => simp
    | null => simp
    | boolean b => simp
    | number x => simp
    | array items => simp
    | object fields => simp
  · rintro ⟨s, hs, hne⟩ h
    have h1 := h (trim s) (List.mem_map.mpr ⟨_, hs, rfl⟩)
    apply h1
    have hpos : 0 < (trim s).length := List.length_pos.mpr hne
    simpa using hpos

/-- An array without a valid text is rejected by `analyzeBatch`. -/
theorem analyzeBatch_invalid (lower : Text → Text) (store : Store) (items : List JsValue)
    (stamps : Nat → Stamp) (now : Time) (hv : validTexts items = []) :
    ∃ e, analyzeBatch lower store (.array items) stamps now = .error e := by
  by_cases h1 : (items.length == 0) = true
  · exact ⟨"Invalid texts array", by simp only [analyzeBatch, h1, if_true]⟩
  · have h2 : ((validTexts items).length == 0) = true := by
      rw [hv]
      rfl
    exact ⟨"No valid texts to analyze",
      by simp only [analyzeBatch, h1, h2, Bool.false_eq_true, if_true, if_false]⟩

/-- `analyzeBatch` throws exactly on the values that are not an array with a valid text. -/
theorem analyzeBatch_error_iff (lower : Text → Text) (store : Store) (texts : JsValue)
    (stamps : Nat → Stamp) (now : Time) :
    (∃ e, analyzeBatch lower store texts stamps now = .error e) ↔
      ∀ items, texts = .array items →
        items = [] ∨ ∀ s, JsValue.string s ∈ items → trim s = [] := by
  constructor
  · rintro ⟨e, he⟩ items hitems
    subst hitems
    by_contra hcon
    rw [not_or] at hcon
    have hv : validTexts items ≠ [] := by
      rw [validTexts_ne_nil_iff]
      by_contra hno
      apply hcon.2
      intro s hs
      by_contra hne
      exact hno ⟨s, hs, hne⟩
    rw [analyzeBatch_ok lower store items stamps now hv] at he
    exact absurd he (by simp)
  · intro h
    cases texts with
    | array items =>
      apply analyzeBatch_invalid
      by_contra hv
      rw [← Ne, validTexts_ne_nil_iff] at hv
      obtain ⟨s, hs, hne⟩ := hv
      rcases h items rfl with h0 | h0
      · rw [h0] at hs
        exact absurd hs (List.not_mem_nil _)
      · exact hne (h0 s hs)
    | undefined => exact ⟨_, rfl⟩
    | null => exact ⟨_, rfl⟩
    | boolean b => exact ⟨_, rfl⟩
    | number x => exact ⟨_, rfl⟩
    | string s => exact ⟨_, rfl⟩
    | object fields => exact ⟨_, rfl⟩

end sentimentAPI

/-- C12: `analyzeText` throws exactly when its argument is not a string or is a string
that is empty after trimming; `analyzeBatch` throws exactly when its argument is not an
array, is the empty array, or is an array none of whose elements is a string that is
non-empty after trimming, so every object, such as the object with a `texts` field that
the Analysis page passes, is rejected; a call that throws leaves the store as it was. -/
theorem C12_validation (lower : Text → Text) (store : Store) (text texts : JsValue)
    (stamp : Stamp) (stamps : Nat → Stamp) (now : Time) :
    ((∃ e, sentimentAPI.analyzeText lower store text stamp now = .error e) ↔
      ∀ s, text = .string s → trim s = []) ∧
    ((∃ e, sentimentAPI.analyzeBatch lower store texts stamps now = .error e) ↔
      ∀ items, texts = .array items →
        items = [] ∨ ∀ s, JsValue.string s ∈ items → trim s = []) ∧
    (∀ fields, sentimentAPI.analyzeBatch lower store (.object fields) stamps now
      = .error "Invalid texts array") ∧
    ((∃ e, sentimentAPI.analyzeText lower store text stamp now = .error e) →
      storeAfter store (sentimentAPI.analyzeText lower store text stamp now) = store) ∧
    ((∃ e, sentimentAPI.analyzeBatch lower store texts stamps now = .error e) →
      storeAfter store (sentimentAPI.analyzeBatch lower store texts stamps now) = store) := by
  refine ⟨sentimentAPI.analyzeText_error_iff lower store text stamp now,
    sentimentAPI.analyzeBatch_error_iff lower store texts stamps now, fun _ => rfl, ?_, ?_⟩
  · rintro ⟨e, he⟩
    rw [he]
    rfl
  · rintro ⟨e, he⟩
    rw [he]
    rfl

theorem classify_range (x : ℚ) :
    classify x = "positive" ∨ classify x = "negative" ∨ classify x = "neutral" := by
  rw [classify_eq]
  split_ifs
  · exact Or.inr (Or.inl rfl)
  · exact Or.inl rfl
  · exact Or.inr (Or.inr rfl)

namespace sentimentAPI

theorem batchResults_getElem? (lower : Text → Text) (stamps : Nat → Stamp) (k : Nat)
    (texts : List Text) (i : Nat) :
    (batchResults lower stamps k texts)[i]? =
      texts[i]?.map (fun t => mkResult lower "batch_" t (stamps (k + i))) := by
  induction texts generalizing k i with
  | nil => simp [batchResults]
  | cons a t ih =>
    cases i with
    | zero => simp [batchResults]
    | succ j =>
      simp only [batchResults, List.getElem?_cons_succ]
      rw [ih (k + 1) j]
      congr 2
      funext u
      congr 2
      omega

theorem batchResults_sentiment (lower : Text → Text) (stamps : Nat → Stamp) (k : Nat)
    (texts : List Text) :
    ∀ r ∈ batchResults lower stamps k texts,
      r.sentiment = "positive" ∨ r.sentiment = "negative" ∨ r.sentiment = "neutral" := by
  induction texts generalizing k with
  | nil =>
    intro r hr
    exact absurd hr (List.not_mem_nil _)
  | cons a t ih =>
    intro r hr
    rw [batchResults, List.mem_cons] at hr
    rcases hr with rfl | hr
    · exact classify_range _
    · exact ih (k + 1) r hr

/-- The kept texts of a batch, element by element: a string with a non-blank trim
contributes its trim, every other element contributes nothing. -/
theorem validTexts_eq_filterMap (items : List JsValue) :
    validTexts items = items.filterMap (fun v =>
      match v with
      | .string s => if trim s = [] then none else some (trim s)
      | _ => none) := by
  unfold validTexts
  induction items with
  | nil => rfl
  | cons v rest ih =>
    rw [List.map_cons, List.filterMap_cons]
    cases v with
    | string s =>
      by_cases hs : trim s = []
      · simp only [hs, List.filter_cons, List.length_nil, lt_irrefl, decide_False,
          Bool.false_eq_true, if_false, if_true]
        exact ih
      · have hpos : 0 < (trim s).length := List.length_pos.mpr hs
        simp only [hs, List.filter_cons, hpos, decide_True, if_true, if_false]
        rw [ih]
    | undefined => simpa [List.filter_cons] using ih
    | null => simpa [List.filter_cons] using ih
    | boolean b => simpa [List.filter_cons] using ih
    | number x => simpa [List.filter_cons] using ih
    | array xs => simpa [List.filter_cons] using ih
    | object fields => simpa [List.filter_cons] using ih

end sentimentAPI

/-- C13: an accepted batch returns one result for each element that is a string with a
non-blank trim, in input order; the result at position `i` has the trimmed element as
text, the polarity, sentiment and subjectivity that `analyzeSentiment` gives for that
text alone (with the draw of position `i`), and the number of whitespace-delimited tokens
as word count; the summary has `total` the number of results and the three counts are the
numbers of results of each sentiment, which add up to `total`. -/
theorem C13_batch_results (lower : Text → Text) (store : Store) (items : List JsValue)
    (stamps : Nat → Stamp) (now : Time) (hv : sentimentAPI.validTexts items ≠ []) :
    ∃ store1 response,
      sentimentAPI.analyzeBatch lower store (.array items) stamps now = .ok (store1, response) ∧
      sentimentAPI.validTexts items = items.filterMap (fun v =>
        match v with
        | .string s => if trim s = [] then none else some (trim s)
        | _ => none) ∧
      response.data.length = (sentimentAPI.validTexts items).length ∧
      (∀ i t, (sentimentAPI.validTexts items)[i]? = some t →
        ∃ r, response.data[i]? = some r ∧
          r.text = t ∧
          r.polarity = (analyzeSentiment lower (stamps i).random t).polarity ∧
          r.sentiment = (analyzeSentiment lower (stamps i).random t).sentiment ∧
          r.subjectivity = (analyzeSentiment lower (stamps i).random t).subjectivity ∧
          r.wordCount = (splitWs t).length) ∧
      response.summary.total = response.data.length ∧
      response.summary.positive = response.data.countP (fun r => r.sentiment = "positive") ∧
      response.summary.negative = response.data.countP (fun r => r.sentiment = "negative") ∧
      response.summary.neutral = response.data.countP (fun r => r.sentiment = "neutral") ∧
      response.summary.positive + response.summary.negative + response.summary.neutral
        = response.summary.total := by
  refine ⟨_, _, sentimentAPI.analyzeBatch_ok lower store items stamps now hv,
    sentimentAPI.validTexts_eq_filterMap items,
    sentimentAPI.batchResults_length lower stamps 0 _, ?_, rfl,
    countSentiment_eq_countP _ _, countSentiment_eq_countP _ _, countSentiment_eq_countP _ _, ?_⟩
  · intro i t ht
    refine ⟨sentimentAPI.mkResult lower "batch_" t (stamps i), ?_, rfl, rfl, rfl, rfl, rfl⟩
    show (sentimentAPI.batchResults lower stamps 0 (sentimentAPI.validTexts items))[i]? = _
    rw [sentimentAPI.batchResults_getElem?, ht, Nat.zero_add]
    rfl
  · show countSentiment "positive" _ + countSentiment "negative" _
      + countSentiment "neutral" _ = _
    rw [countSentiment_eq_countP, countSentiment_eq_countP, countSentiment_eq_countP]
    exact countP_sentiments_add _ (sentimentAPI.batchResults_sentiment lower stamps 0 _)

/-- Witness of `C13_batch_results`: a batch of three elements, one of them not a string,
gives two results, the texts `good` and `bad day`. -/
theorem C13_batch_results_witness :
    sentimentAPI.validTexts
      [.string " good ".toList, .number 3, .string "bad day".toList] ≠ [] ∧
    ∃ store1 response,
      sentimentAPI.analyzeBatch asciiLower Store.empty
        (.array [.string " good ".toList, .number 3, .string "bad day".toList])
        (fun _ => { random := 0, timestamp := 0, idSuffix := "" }) 0
          = .ok (store1, response) ∧
      response.data.map (fun r => r.text) = ["good".toList, "bad day".toList] ∧
      response.data.map (fun r => r.wordCount) = [1, 2] ∧
      response.summary.total = 2 ∧
      response.summary.positive + response.summary.negative + response.summary.neutral = 2 := by
  obtain ⟨store1, response, hok, _, hlen, _, htot, _, _, _, hsum⟩ :=
    C13_batch_results asciiLower Store.empty
      [.string " good ".toList, .number 3, .string "bad day".toList]
      (fun _ => { random := 0, timestamp := 0, idSuffix := "" }) 0 (by decide)
  have hdata : response.data = sentimentAPI.batchResults asciiLower
      (fun _ => { random := 0, timestamp := 0, idSuffix := "" }) 0
      (sentimentAPI.validTexts
        [.string " good ".toList, .number 3, .string "bad day".toList]) := by
    rw [sentimentAPI.analyzeBatch_ok asciiLower Store.empty _ _ 0 (by decide)] at hok
    injection hok with hok
    injection hok with _ h2
    rw [← h2]
  have h2 : response.data.length = 2 := by
    rw [hlen]
    decide
  refine ⟨by decide, store1, response, hok, ?_, ?_, ?_, ?_⟩
  · rw [hdata]
    decide
  · rw [hdata]
    decide
  · rw [htot, h2]
  · rw [hsum, htot, h2]

theorem jsSlice_nil {α : Type} (start stop : Int) : jsSlice ([] : List α) start stop = [] := by
  simp [jsSlice]

/-- C14: on any store, `clearAnalysisHistory` followed by `getDashboardStats` returns
`totalAnalysis`, `positive`, `negative`, `neutral` and `averagePolarity` all `0`, and
`getAnalysisHistory`, called after the clear or after that read, returns no record and
`total = 0`. -/
theorem C14_clear_resets (store : Store) (now : Time) (page limit : Int) :
    (sentimentAPI.getDashboardStats
      (sentimentAPI.clearAnalysisHistory store) now).2.totalAnalysis = 0 ∧
    (sentimentAPI.getDashboardStats
      (sentimentAPI.clearAnalysisHistory store) now).2.positive = 0 ∧
    (sentimentAPI.getDashboardStats
      (sentimentAPI.clearAnalysisHistory store) now).2.negative = 0 ∧
    (sentimentAPI.getDashboardStats
      (sentimentAPI.clearAnalysisHistory store) now).2.neutral = 0 ∧
    (sentimentAPI.getDashboardStats
      (sentimentAPI.clearAnalysisHistory store) now).2.averagePolarity = 0 ∧
    (sentimentAPI.getAnalysisHistory
      (sentimentAPI.clearAnalysisHistory store) page limit).data = [] ∧
    (sentimentAPI.getAnalysisHistory
      (sentimentAPI.clearAnalysisHistory store) page limit).pagination.total = 0 ∧
    (sentimentAPI.getAnalysisHistory
      (sentimentAPI.getDashboardStats
        (sentimentAPI.clearAnalysisHistory store) now).1 page limit).data = [] ∧
    (sentimentAPI.getAnalysisHistory
      (sentimentAPI.getDashboardStats
        (sentimentAPI.clearAnalysisHistory store) now).1 page limit).pagination.total = 0 := by
  refine ⟨rfl, rfl, rfl, rfl, ?_, ?_, rfl, ?_, rfl⟩
  · show toFixed3 (if (0 : Nat) > 0 then _ else 0) = 0
    rw [if_neg (by decide), toFixed3_zero]
  · exact jsSlice_nil _ _
  · exact jsSlice_nil _ _

/-! ## Claims about the numbers of the scorer -/

/-- C15: the polarity and the subjectivity that `analyzeSentiment` returns are whole
numbers of thousandths, each within `0.0005` of the value computed before rounding. -/
theorem C15_three_decimals (lower : Text → Text) (random : ℚ) (text : Text) :
    (∃ k : ℤ, 1000 * (analyzeSentiment lower random text).polarity = (k : ℚ)) ∧
    |(analyzeSentiment lower random text).polarity - rawPolarity lower random text|
      ≤ 5 / 10000 ∧
    (∃ k : ℤ, 1000 * (analyzeSentiment lower random text).subjectivity = (k : ℚ)) ∧
    |(analyzeSentiment lower random text).subjectivity - rawSubjectivity lower text|
      ≤ 5 / 10000 := by
  refine ⟨toFixed3_thousandths _, ?_, toFixed3_thousandths _, ?_⟩
  · have h := toFixed3_close (rawPolarity lower random text)
    have hc : (1 : ℚ) / 2000 = 5 / 10000 := by norm_num
    rw [hc] at h
    exact h
  · have h := toFixed3_close (rawSubjectivity lower text)
    have hc : (1 : ℚ) / 2000 = 5 / 10000 := by norm_num
    rw [hc] at h
    exact h

/-- The base polarity in the tie case, for a draw in `[0, 1)`. -/
theorem basePolarity_tie (n : Nat) {random : ℚ} (h0 : 0 ≤ random) (h1 : random < 1) :
    -(2 / 10) ≤ basePolarity n n random ∧ basePolarity n n random < 2 / 10 := by
  unfold basePolarity
  rw [if_neg (lt_irrefl n), if_neg (lt_irrefl n)]
  constructor <;> linarith

/-- The unrounded polarity is at most `1.2` in absolute value, for a draw in `[0, 1)`. -/
theorem rawPolarity_abs_le (lower : Text → Text) (random : ℚ) (text : Text)
    (h0 : 0 ≤ random) (h1 : random < 1) : |rawPolarity lower random text| ≤ 12 / 10 := by
  rcases Nat.lt_trichotomy (positiveMatches (lower text)) (negativeMatches (lower text))
    with h | h | h
  · rw [rawPolarity_of_gt lower random text h, abs_le]
    have hk : min (100 + 150 * negativeMatches (lower text)) 900
        + 100 * min (exclamationCount text) 3 ≤ 1200 := by omega
    have hq : ((min (100 + 150 * negativeMatches (lower text)) 900
        + 100 * min (exclamationCount text) 3 : ℕ) : ℚ) ≤ 1200 := by exact_mod_cast hk
    have hn : (0 : ℚ) ≤ ((min (100 + 150 * negativeMatches (lower text)) 900
        + 100 * min (exclamationCount text) 3 : ℕ) : ℚ) := Nat.cast_nonneg _
    constructor <;> linarith
  · unfold rawPolarity
    rw [h]
    obtain ⟨hlo, hhi⟩ := basePolarity_tie (negativeMatches (lower text)) h0 h1
    have hm : ((min (exclamationCount text) 3 : ℕ) : ℚ) ≤ 3 := by
      exact_mod_cast Nat.min_le_right _ _
    have hm0 : (0 : ℚ) ≤ ((min (exclamationCount text) 3 : ℕ) : ℚ) := Nat.cast_nonneg _
    rw [abs_le]
    rcases lt_or_le 0 (basePolarity (negativeMatches (lower text))
      (negativeMatches (lower text)) random) with hb | hb
    · rw [adjustPolarity_of_pos hb]
      constructor <;> linarith
    · rw [adjustPolarity_of_nonpos hb]
      constructor <;> linarith
  · rw [rawPolarity_of_lt lower random text h, abs_le]
    have hk : min (100 + 150 * positiveMatches (lower text)) 900
        + 100 * min (exclamationCount text) 3 ≤ 1200 := by omega
    have hq : ((min (100 + 150 * positiveMatches (lower text)) 900
        + 100 * min (exclamationCount text) 3 : ℕ) : ℚ) ≤ 1200 := by exact_mod_cast hk
    have hn : (0 : ℚ) ≤ ((min (100 + 150 * positiveMatches (lower text)) 900
        + 100 * min (exclamationCount text) 3 : ℕ) : ℚ) := Nat.cast_nonneg _
    constructor <;> linarith

/-- Rounding keeps a value inside an interval whose ends are whole thousandths. -/
theorem toFixed3_mem_Icc {x : ℚ} (a b : ℤ) (ha : (a : ℚ) / 1000 ≤ x) (hb : x ≤ (b : ℚ) / 1000) :
    (a : ℚ) / 1000 ≤ toFixed3 x ∧ toFixed3 x ≤ (b : ℚ) / 1000 := by
  constructor
  · have h := toFixed3_mono ha
    rwa [toFixed3_intCast_div] at h
  · have h := toFixed3_mono hb
    rwa [toFixed3_intCast_div] at h

/-- C16: the exclamation adjustment is not clamped. For a draw in `[0, 1)` the returned
polarity is at most `1.2` in absolute value; every text with at least six distinct
positive markers, fewer negative ones and at least three `!` has returned polarity
exactly `1.2`, and `excellent great good amazing wonderful perfect!!!` is such a text. -/
theorem C16_unclamped_adjustment :
    (∀ (lower : Text → Text) (random : ℚ) (text : Text), 0 ≤ random → random < 1 →
      |(analyzeSentiment lower random text).polarity| ≤ 12 / 10) ∧
    (∀ (lower : Text → Text) (random : ℚ) (text : Text),
      6 ≤ positiveMatches (lower text) →
      negativeMatches (lower text) < positiveMatches (lower text) →
      3 ≤ exclamationCount text →
      (analyzeSentiment lower random text).polarity = 12 / 10) ∧
    (6 ≤ positiveMatches
        (asciiLower "excellent great good amazing wonderful perfect!!!".toList) ∧
      negativeMatches
        (asciiLower "excellent great good amazing wonderful perfect!!!".toList) = 0 ∧
      3 ≤ exclamationCount "excellent great good amazing wonderful perfect!!!".toList ∧
      ∀ random : ℚ,
        (analyzeSentiment asciiLower random
          "excellent great good amazing wonderful perfect!!!".toList).polarity = 12 / 10 ∧
        (9 : ℚ) / 10 < (analyzeSentiment asciiLower random
          "excellent great good amazing wonderful perfect!!!".toList).polarity) := by
  have hmax : ∀ (lower : Text → Text) (random : ℚ) (text : Text),
      6 ≤ positiveMatches (lower text) →
      negativeMatches (lower text) < positiveMatches (lower text) →
      3 ≤ exclamationCount text →
      (analyzeSentiment lower random text).polarity = 12 / 10 := by
    intro lower random text h6 hlt h3
    show toFixed3 (rawPolarity lower random text) = 12 / 10
    rw [rawPolarity_of_lt lower random text hlt, toFixed3_natCast_div]
    have hk : min (100 + 150 * positiveMatches (lower text)) 900
        + 100 * min (exclamationCount text) 3 = 1200 := by omega
    rw [hk]
    norm_num
  refine ⟨?_, hmax, ?_⟩
  · intro lower random text h0 h1
    have h := rawPolarity_abs_le lower random text h0 h1
    rw [abs_le] at h
    have hb := toFixed3_mem_Icc (x := rawPolarity lower random text) (-1200) 1200
      (by push_cast; linarith [h.1]) (by push_cast; linarith [h.2])
    rw [abs_le]
    show -(12 / 10) ≤ toFixed3 (rawPolarity lower random text) ∧
      toFixed3 (rawPolarity lower random text) ≤ 12 / 10
    push_cast at hb
    constructor <;> linarith [hb.1, hb.2]
  · have hp : 6 ≤ positiveMatches
        (asciiLower "excellent great good amazing wonderful perfect!!!".toList) := by decide
    have hn : negativeMatches
        (asciiLower "excellent great good amazing wonderful perfect!!!".toList) = 0 := by decide
    have hb : 3 ≤ exclamationCount
        "excellent great good amazing wonderful perfect!!!".toList := by decide
    refine ⟨hp, hn, hb, ?_⟩
    intro random
    have h := hmax asciiLower random _ hp (by rw [hn]; omega) hb
    rw [h]
    exact ⟨rfl, by norm_num⟩

theorem splitWsAux_length_pos (s cur : Text) (inGap : Bool) :
    1 ≤ (splitWsAux s cur inGap).length := by
  induction s generalizing cur inGap with
  | nil => simp [splitWsAux]
  | cons c cs ih =>
    unfold splitWsAux
    split_ifs
    · exact ih _ _
    · simp
    · exact ih _ _

theorem rawSubjectivity_bounds (lower : Text → Text) (text : Text) :
    2 / 10 ≤ rawSubjectivity lower text ∧ rawSubjectivity lower text ≤ 9 / 10 := by
  unfold rawSubjectivity
  constructor
  · apply le_min _ (by norm_num)
    have h : (0 : ℚ) ≤ ((positiveMatches (lower text) + negativeMatches (lower text) : ℕ) : ℚ)
        / (((splitWs text).length : ℕ) : ℚ) := div_nonneg (Nat.cast_nonneg _) (Nat.cast_nonneg _)
    linarith [mul_nonneg h (show (0 : ℚ) ≤ 8 / 10 by norm_num)]
  · exact min_le_right _ _

/-- C17: for every text, the empty one included, the word count that divides is at least
`1`, and the subjectivity, before and after rounding, lies between `0.2` and `0.9`, hence
in `[0, 0.9]`; for `goodbad`, two markers in one word, it is `0.9`. -/
theorem C17_subjectivity_range :
    (∀ text : Text, 1 ≤ (splitWs text).length ∧ (((splitWs text).length : ℕ) : ℚ) ≠ 0) ∧
    (splitWs []).length = 1 ∧
    (∀ (lower : Text → Text) (random : ℚ) (text : Text),
      2 / 10 ≤ rawSubjectivity lower text ∧ rawSubjectivity lower text ≤ 9 / 10 ∧
      0 ≤ (analyzeSentiment lower random text).subjectivity ∧
      2 / 10 ≤ (analyzeSentiment lower random text).subjectivity ∧
      (analyzeSentiment lower random text).subjectivity ≤ 9 / 10) ∧
    ((splitWs "goodbad".toList).length
        < positiveMatches (asciiLower "goodbad".toList)
          + negativeMatches (asciiLower "goodbad".toList) ∧
      ∀ random : ℚ, (analyzeSentiment asciiLower random "goodbad".toList).subjectivity
        = 9 / 10) := by
  have hlen : ∀ text : Text, 1 ≤ (splitWs text).length := fun text =>
    splitWsAux_length_pos text [] false
  refine ⟨?_, rfl, ?_, ?_⟩
  · intro text
    refine ⟨hlen text, ?_⟩
    have h := hlen text
    exact_mod_cast (show (splitWs text).length ≠ 0 by omega)
  · intro lower random text
    obtain ⟨hlo, hhi⟩ := rawSubjectivity_bounds lower text
    have hb := toFixed3_mem_Icc (x := rawSubjectivity lower text) 200 900
      (by push_cast; linarith) (by push_cast; linarith)
    push_cast at hb
    have h1 : 2 / 10 ≤ toFixed3 (rawSubjectivity lower text) := by linarith [hb.1]
    have h2 : toFixed3 (rawSubjectivity lower text) ≤ 9 / 10 := by linarith [hb.2]
    exact ⟨hlo, hhi, by show 0 ≤ toFixed3 _; linarith, h1, h2⟩
  · refine ⟨by decide, ?_⟩
    intro random
    have hp : positiveMatches (asciiLower "goodbad".toList) = 1 := by decide
    have hn : negativeMatches (asciiLower "goodbad".toList) = 1 := by decide
    have hw : (splitWs "goodbad".toList).length = 1 := by decide
    show toFixed3 (rawSubjectivity asciiLower "goodbad".toList) = 9 / 10
    have hraw : rawSubjectivity asciiLower "goodbad".toList = 9 / 10 := by
      unfold rawSubjectivity
      rw [hp, hn, hw]
      norm_num
    rw [hraw]
    have h := toFixed3_intCast_div 900
    norm_num at h ⊢
    exact h

/-- C18: for a text with equal positive and negative marker counts and a draw in `[0, 1)`,
the polarity before the exclamation adjustment lies in `[-0.2, 0.2]`; when the text has no
`!`, the returned polarity lies in `[-0.2, 0.2]` and the sentiment is `neutral`. -/
theorem C18_tie_polarity (lower : Text → Text) (random : ℚ) (text : Text)
    (htie : positiveMatches (lower text) = negativeMatches (lower text))
    (h0 : 0 ≤ random) (h1 : random < 1) :
    -(2 / 10) ≤ basePolarity (positiveMatches (lower text)) (negativeMatches (lower text))
      random ∧
    basePolarity (positiveMatches (lower text)) (negativeMatches (lower text)) random
      ≤ 2 / 10 ∧
    (exclamationCount text = 0 →
      -(2 / 10) ≤ (analyzeSentiment lower random text).polarity ∧
      (analyzeSentiment lower random text).polarity ≤ 2 / 10 ∧
      (analyzeSentiment lower random text).sentiment = "neutral") := by
  rw [htie]
  obtain ⟨hlo, hhi⟩ := basePolarity_tie (negativeMatches (lower text)) h0 h1
  refine ⟨hlo, hhi.le, ?_⟩
  intro hb
  have hraw : rawPolarity lower random text =
      basePolarity (negativeMatches (lower text)) (negativeMatches (lower text)) random := by
    unfold rawPolarity
    rw [htie, hb]
    unfold adjustPolarity
    rw [if_neg (lt_irrefl 0)]
  have hfix := toFixed3_mem_Icc (x := rawPolarity lower random text) (-200) 200
    (by rw [hraw]; push_cast; linarith) (by rw [hraw]; push_cast; linarith)
  push_cast at hfix
  refine ⟨?_, ?_, ?_⟩
  · show -(2 / 10) ≤ toFixed3 (rawPolarity lower random text)
    linarith [hfix.1]
  · show toFixed3 (rawPolarity lower random text) ≤ 2 / 10
    linarith [hfix.2]
  · show classify (rawPolarity lower random text) = "neutral"
    rw [classify_neutral_iff, hraw]
    constructor <;> linarith

/-- Witness of `C18_tie_polarity`: `good but bad` has one marker of each kind; with the
draw `3/4` its polarity is `0.1` and its sentiment `neutral`. -/
theorem C18_tie_polarity_witness :
    positiveMatches (asciiLower "good but bad".toList)
      = negativeMatches (asciiLower "good but bad".toList) ∧
    (0 : ℚ) ≤ 3 / 4 ∧ (3 : ℚ) / 4 < 1 ∧
    exclamationCount "good but bad".toList = 0 ∧
    basePolarity (positiveMatches (asciiLower "good but bad".toList))
      (negativeMatches (asciiLower "good but bad".toList)) (3 / 4) = 1 / 10 ∧
    -(2 / 10) ≤ (analyzeSentiment asciiLower (3 / 4) "good but bad".toList).polarity ∧
    (analyzeSentiment asciiLower (3 / 4) "good but bad".toList).polarity ≤ 2 / 10 ∧
    (analyzeSentiment asciiLower (3 / 4) "good but bad".toList).sentiment = "neutral" := by
  have hp : positiveMatches (asciiLower "good but bad".toList) = 1 := by decide
  have hn : negativeMatches (asciiLower "good but bad".toList) = 1 := by decide
  have h := C18_tie_polarity asciiLower (3 / 4) "good but bad".toList (by rw [hp, hn])
    (by norm_num) (by norm_num)
  obtain ⟨h1, h2, h3⟩ := h.2.2 (by decide)
  refine ⟨by rw [hp, hn], by norm_num, by norm_num, by decide, ?_, h1, h2, h3⟩
  rw [hp, hn]
  norm_num [basePolarity]

/-- C19, as stated, fails: on a store whose persisted stats record was last updated at
time `5`, a read at time `9` returns `lastUpdated = 5`, and persists a record with
`lastUpdated = 9`. -/
theorem C19_lastUpdated_from_record :
    (sentimentAPI.getDashboardStats
      { history := []
        stats := some { totalAnalysis := 0, positive := 0, negative := 0, neutral := 0,
                        averagePolarity := 0, lastUpdated := 5 } } 9).2.lastUpdated = 5 ∧
    (sentimentAPI.getDashboardStats
      { history := []
        stats := some { totalAnalysis := 0, positive := 0, negative := 0, neutral := 0,
                        averagePolarity := 0, lastUpdated := 5 } } 9).2.lastUpdated ≠ 9 ∧
    ((sentimentAPI.getDashboardStats
      { history := []
        stats := some { totalAnalysis := 0, positive := 0, negative := 0, neutral := 0,
                        averagePolarity := 0, lastUpdated := 5 } } 9).1.stats.map
        (fun st => st.lastUpdated)) = some 9 := by
  refine ⟨rfl, ?_, rfl⟩
  show (5 : Nat) ≠ 9
  decide

/-- C19, amended: the `lastUpdated` that `getDashboardStats` returns is the one of the
persisted stats record when there is one, and the time of the read only when none is
persisted; the record that the read persists carries the time of the read, so that the
next read returns it. -/
theorem C19_lastUpdated (store : Store) (now next : Time) :
    (∀ persisted, store.stats = some persisted →
      (sentimentAPI.getDashboardStats store now).2.lastUpdated = persisted.lastUpdated) ∧
    (store.stats = none →
      (sentimentAPI.getDashboardStats store now).2.lastUpdated = now) ∧
    ((sentimentAPI.getDashboardStats store now).1.stats.map (fun st => st.lastUpdated))
      = some now ∧
    (sentimentAPI.getDashboardStats
      (sentimentAPI.getDashboardStats store now).1 next).2.lastUpdated = now := by
  refine ⟨?_, ?_, rfl, rfl⟩
  · intro persisted h
    show (getDashboardStats store now).lastUpdated = _
    unfold getDashboardStats
    rw [h]
  · intro h
    show (getDashboardStats store now).lastUpdated = _
    unfold getDashboardStats
    rw [h]

/-- C20: for a text whose marker counts differ, the sentiment is `neutral` exactly when
the larger count is `1` and the text has no `!`, the returned polarity being then `0.25`
or `-0.25`; in every other such case the sentiment is `positive` when the positive
markers are more and `negative` when the negative markers are more. -/
theorem C20_non_tie_sentiment (lower : Text → Text) (random : ℚ) (text : Text)
    (hne : positiveMatches (lower text) ≠ negativeMatches (lower text)) :
    ((analyzeSentiment lower random text).sentiment = "neutral" ↔
      (max (positiveMatches (lower text)) (negativeMatches (lower text)) = 1 ∧
        exclamationCount text = 0)) ∧
    (¬ (max (positiveMatches (lower text)) (negativeMatches (lower text)) = 1 ∧
          exclamationCount text = 0) →
      (negativeMatches (lower text) < positiveMatches (lower text) →
        (analyzeSentiment lower random text).sentiment = "positive") ∧
      (positiveMatches (lower text) < negativeMatches (lower text) →
        (analyzeSentiment lower random text).sentiment = "negative")) ∧
    (max (positiveMatches (lower text)) (negativeMatches (lower text)) = 1 →
      exclamationCount text = 0 →
      (negativeMatches (lower text) < positiveMatches (lower text) →
        (analyzeSentiment lower random text).polarity = 25 / 100) ∧
      (positiveMatches (lower text) < negativeMatches (lower text) →
        (analyzeSentiment lower random text).polarity = -(25 / 100))) := by
  have hc : ((25 : ℚ) / 100 * 1000) = ((250 : ℕ) : ℚ) := by norm_num
  rcases Nat.lt_or_gt_of_ne hne with h | h
  · -- more negative markers
    have hraw := rawPolarity_of_gt lower random text h
    have hmax : max (positiveMatches (lower text)) (negativeMatches (lower text))
        = negativeMatches (lower text) := max_eq_right h.le
    have hneg : (analyzeSentiment lower random text).sentiment = "negative" ↔
        250 < min (100 + 150 * negativeMatches (lower text)) 900
          + 100 * min (exclamationCount text) 3 := by
      show classify (rawPolarity lower random text) = "negative" ↔ _
      rw [classify_negative_iff, hraw, neg_div, neg_lt_neg_iff, lt_div_iff₀ (by norm_num), hc,
        Nat.cast_lt]
    have hneu : (analyzeSentiment lower random text).sentiment = "neutral" ↔
        min (100 + 150 * negativeMatches (lower text)) 900
          + 100 * min (exclamationCount text) 3 ≤ 250 := by
      show classify (rawPolarity lower random text) = "neutral" ↔ _
      rw [classify_neutral_iff, hraw, neg_div, neg_le_neg_iff, div_le_iff₀ (by norm_num), hc,
        Nat.cast_le]
      constructor
      · exact fun hh => hh.1
      · intro hh
        refine ⟨hh, ?_⟩
        have hn : (0 : ℚ) ≤ ((min (100 + 150 * negativeMatches (lower text)) 900
            + 100 * min (exclamationCount text) 3 : ℕ) : ℚ) / 1000 :=
          div_nonneg (Nat.cast_nonneg _) (by norm_num)
        linarith
    rw [hmax]
    refine ⟨?_, ?_, ?_⟩
    · rw [hneu]
      omega
    · intro hnot
      refine ⟨fun hlt => absurd hlt (by omega), fun _ => ?_⟩
      rw [hneg]
      omega
    · intro h1 hb
      refine ⟨fun hlt => absurd hlt (by omega), fun _ => ?_⟩
      show toFixed3 (rawPolarity lower random text) = _
      rw [hraw, h1, hb]
      have hq := toFixed3_neg_quarter
      norm_num at hq ⊢
      exact hq
  · -- more positive markers
    have hraw := rawPolarity_of_lt lower random text h
    have hmax : max (positiveMatches (lower text)) (negativeMatches (lower text))
        = positiveMatches (lower text) := max_eq_left h.le
    have hpos : (analyzeSentiment lower random text).sentiment = "positive" ↔
        250 < min (100 + 150 * positiveMatches (lower text)) 900
          + 100 * min (exclamationCount text) 3 := by
      show classify (rawPolarity lower random text) = "positive" ↔ _
      rw [classify_positive_iff, hraw, lt_div_iff₀ (by norm_num), hc, Nat.cast_lt]
    have hneu : (analyzeSentiment lower random text).sentiment = "neutral" ↔
        min (100 + 150 * positiveMatches (lower text)) 900
          + 100 * min (exclamationCount text) 3 ≤ 250 := by
      show classify (rawPolarity lower random text) = "neutral" ↔ _
      rw [classify_neutral_iff, hraw, div_le_iff₀ (by norm_num), hc, Nat.cast_le]
      constructor
      · exact fun hh => hh.2
      · intro hh
        refine ⟨?_, hh⟩
        have hn : (0 : ℚ) ≤ ((min (100 + 150 * positiveMatches (lower text)) 900
            + 100 * min (exclamationCount text) 3 : ℕ) : ℚ) / 1000 :=
          div_nonneg (Nat.cast_nonneg _) (by norm_num)
        linarith
    rw [hmax]
    refine ⟨?_, ?_, ?_⟩
    · rw [hneu]
      omega
    · intro hnot
      refine ⟨fun _ => ?_, fun hlt => absurd hlt (by omega)⟩
      rw [hpos]
      omega
    · intro h1 hb
      refine ⟨fun _ => ?_, fun hlt => absurd hlt (by omega)⟩
      show toFixed3 (rawPolarity lower random text) = _
      rw [hraw, h1, hb]
      have hq := toFixed3_quarter
      norm_num at hq ⊢
      exact hq

/-- Witness of `C20_non_tie_sentiment`: `awful` has one negative marker and no `!`, and
is `neutral` with polarity `-0.25`; `awful!` is `negative`. -/
theorem C20_non_tie_sentiment_witness :
    positiveMatches (asciiLower "awful".toList) ≠ negativeMatches (asciiLower "awful".toList) ∧
    (analyzeSentiment asciiLower 0 "awful".toList).sentiment = "neutral" ∧
    (analyzeSentiment asciiLower 0 "awful".toList).polarity = -(25 / 100) ∧
    positiveMatches (asciiLower "awful!".toList)
      ≠ negativeMatches (asciiLower "awful!".toList) ∧
    (analyzeSentiment asciiLower 0 "awful!".toList).sentiment = "negative" := by
  have hp : positiveMatches (asciiLower "awful".toList) = 0 := by decide
  have hn : negativeMatches (asciiLower "awful".toList) = 1 := by decide
  have hb : exclamationCount "awful".toList = 0 := by decide
  have hp2 : positiveMatches (asciiLower "awful!".toList) = 0 := by decide
  have hn2 : negativeMatches (asciiLower "awful!".toList) = 1 := by decide
  have hb2 : exclamationCount "awful!".toList = 1 := by decide
  have h := C20_non_tie_sentiment asciiLower 0 "awful".toList (by rw [hp, hn]; decide)
  have h2 := C20_non_tie_sentiment asciiLower 0 "awful!".toList (by rw [hp2, hn2]; decide)
  refine ⟨by rw [hp, hn]; decide, ?_, ?_, by rw [hp2, hn2]; decide, ?_⟩
  · exact h.1.mpr ⟨by rw [hp, hn]; rfl, hb⟩
  · exact (h.2.2 (by rw [hp, hn]; rfl) hb).2 (by rw [hp, hn]; decide)
  · exact (h2.2.1 (by rw [hb2]; simp)).2 (by rw [hp2, hn2]; decide)

/-! ## Claims about the pages of the history -/

/-- The first `n` chunks of `size` entries of a list, put end to end, are its first
`n * size` entries. -/
theorem flatten_chunks {α : Type} (l : List α) (size n : Nat) :
    ((List.range n).map (fun i => (l.drop (i * size)).take size)).flatten
      = l.take (n * size) := by
  induction n with
  | zero => simp
  | succ k ih =>
    rw [List.range_succ, List.map_append, List.flatten_append, ih]
    simp only [List.map_cons, List.map_nil, List.flatten_cons, List.flatten_nil,
      List.append_nil]
    rw [Nat.succ_mul, List.take_add]

namespace sentimentAPI

/-- The data of page `i + 1`, with the indices as natural numbers. -/
theorem getAnalysisHistory_data_nat (store : Store) (limit : Int) (hl : 1 ≤ limit) (i : Nat) :
    (getAnalysisHistory store ((i : Int) + 1) limit).data =
      (store.history.drop (i * limit.toNat)).take limit.toNat := by
  have h : (getAnalysisHistory store ((i : Int) + 1) limit).data =
      (store.history.drop ((((i : Int) + 1) - 1) * limit).toNat).take limit.toNat :=
    jsSlice_page store.history ((i : Int) + 1) limit (by omega) hl
  rw [h]
  congr 2
  have hlim : ((limit.toNat : Nat) : Int) = limit := Int.toNat_of_nonneg (by omega)
  have hmul : (((i : Int) + 1) - 1) * limit = ((i * limit.toNat : Nat) : Int) := by
    push_cast
    rw [hlim]
    ring
  rw [hmul, Int.toNat_ofNat]

end sentimentAPI

/-- The pages of a history for a page count `T` that is the ceiling of
`length / limit`. -/
theorem pages_of_ceil (store : Store) (limit T : Int) (hl : 1 ≤ limit)
    (hlo : (store.history.length : Int) ≤ T * limit)
    (hhi : T * limit < (store.history.length : Int) + limit) :
    ((List.range T.toNat).map
      (fun (i : Nat) => (sentimentAPI.getAnalysisHistory store ((i : Int) + 1) limit).data)).flatten
        = store.history ∧
    0 ≤ T ∧
    (∀ page : Int, 1 ≤ page → page < T →
      ((sentimentAPI.getAnalysisHistory store page limit).data.length : Int) = limit) ∧
    (∀ page : Int, T < page →
      (sentimentAPI.getAnalysisHistory store page limit).data = []) := by
  have hT0 : 0 ≤ T := by
    by_contra hneg
    have h1 : T ≤ -1 := by omega
    have h2 : T * limit ≤ -1 * limit := mul_le_mul_of_nonneg_right h1 (by omega)
    omega
  have hlim : ((limit.toNat : Nat) : Int) = limit := Int.toNat_of_nonneg (by omega)
  refine ⟨?_, hT0, ?_, ?_⟩
  · have hmap : (List.range T.toNat).map
        (fun (i : Nat) =>
          (sentimentAPI.getAnalysisHistory store ((i : Int) + 1) limit).data)
        = (List.range T.toNat).map
          (fun (i : Nat) => (store.history.drop (i * limit.toNat)).take limit.toNat) := by
      apply List.map_congr_left
      intro i _
      exact sentimentAPI.getAnalysisHistory_data_nat store limit hl i
    rw [hmap, flatten_chunks]
    apply List.take_of_length_le
    have hcast : ((T.toNat * limit.toNat : Nat) : Int) = T * limit := by
      push_cast
      rw [hlim, Int.toNat_of_nonneg hT0]
    omega
  · intro page hp hlt
    have hdata : (sentimentAPI.getAnalysisHistory store page limit).data =
        (store.history.drop ((page - 1) * limit).toNat).take limit.toNat :=
      jsSlice_page store.history page limit hp hl
    have hs : 0 ≤ (page - 1) * limit := mul_nonneg (by omega) (by omega)
    have hfull : page * limit ≤ (T - 1) * limit :=
      mul_le_mul_of_nonneg_right (by omega) (by omega)
    have hexp : (T - 1) * limit = T * limit - limit := by ring
    have hexp2 : (page - 1) * limit = page * limit - limit := by ring
    rw [hdata, List.length_take, List.length_drop]
    omega
  · intro page hgt
    have hdata : (sentimentAPI.getAnalysisHistory store page limit).data =
        (store.history.drop ((page - 1) * limit).toNat).take limit.toNat :=
      jsSlice_page store.history page limit (by omega) hl
    have hge : T * limit ≤ (page - 1) * limit :=
      mul_le_mul_of_nonneg_right (by omega) (by omega)
    rw [hdata, List.drop_of_length_le (by omega), List.take_nil]

/-- C21: for `limit >= 1`, the pages `1` to `totalPages` of `getAnalysisHistory`, put end
to end, are the stored history, in its order; `totalPages` is the same on every page;
every page before the last holds exactly `limit` records; every page after `totalPages`
is empty. -/
theorem C21_pages_cover_history (store : Store) (limit : Int) (hl : 1 ≤ limit) :
    ((List.range (sentimentAPI.getAnalysisHistory store 1 limit).pagination.totalPages.toNat).map
      (fun (i : Nat) =>
        (sentimentAPI.getAnalysisHistory store ((i : Int) + 1) limit).data)).flatten
        = store.history ∧
    (∀ page : Int,
      (sentimentAPI.getAnalysisHistory store page limit).pagination.totalPages
        = (sentimentAPI.getAnalysisHistory store 1 limit).pagination.totalPages) ∧
    0 ≤ (sentimentAPI.getAnalysisHistory store 1 limit).pagination.totalPages ∧
    (∀ page : Int, 1 ≤ page →
      page < (sentimentAPI.getAnalysisHistory store 1 limit).pagination.totalPages →
      ((sentimentAPI.getAnalysisHistory store page limit).data.length : Int) = limit) ∧
    (∀ page : Int,
      (sentimentAPI.getAnalysisHistory store 1 limit).pagination.totalPages < page →
      (sentimentAPI.getAnalysisHistory store page limit).data = []) := by
  obtain ⟨hlo, hhi⟩ := ceil_div_bounds store.history.length limit hl
  obtain ⟨hcat, hT0, hfull, hempty⟩ := pages_of_ceil store limit
    (sentimentAPI.getAnalysisHistory store 1 limit).pagination.totalPages hl hlo hhi
  exact ⟨hcat, fun _ => rfl, hT0, hfull, hempty⟩

/-- Witness of `C21_pages_cover_history`: a history of 25 records read with limit 10 has
3 pages; the first two hold 10 records, the fourth is empty, and the three pages put end
to end are the history. -/
theorem C21_pages_cover_history_witness :
    (1 : Int) ≤ 10 ∧
    (sentimentAPI.getAnalysisHistory
      { history := (List.range 25).map (fun i =>
          { text := "ok".toList, polarity := 0, sentiment := "neutral", subjectivity := 2 / 10,
            timestamp := i, id := "", wordCount := 1 })
        stats := none } 1 10).pagination.totalPages = 3 ∧
    ((List.range 3).map (fun (i : Nat) =>
      (sentimentAPI.getAnalysisHistory
        { history := (List.range 25).map (fun i =>
            { text := "ok".toList, polarity := 0, sentiment := "neutral",
              subjectivity := 2 / 10, timestamp := i, id := "", wordCount := 1 })
          stats := none } ((i : Int) + 1) 10).data)).flatten
      = (List.range 25).map (fun i =>
          { text := "ok".toList, polarity := 0, sentiment := "neutral", subjectivity := 2 / 10,
            timestamp := i, id := "", wordCount := 1 }) ∧
    ((sentimentAPI.getAnalysisHistory
      { history := (List.range 25).map (fun i =>
          { text := "ok".toList, polarity := 0, sentiment := "neutral", subjectivity := 2 / 10,
            timestamp := i, id := "", wordCount := 1 })
        stats := none } 2 10).data.length : Int) = 10 ∧
    (sentimentAPI.getAnalysisHistory
      { history := (List.range 25).map (fun i =>
          { text := "ok".toList, polarity := 0, sentiment := "neutral", subjectivity := 2 / 10,
            timestamp := i, id := "", wordCount := 1 })
        stats := none } 4 10).data = [] := by
  obtain ⟨hcat, _, _, hfull, hempty⟩ := C21_pages_cover_history
    { history := (List.range 25).map (fun i =>
        { text := "ok".toList, polarity := 0, sentiment := "neutral", subjectivity := 2 / 10,
          timestamp := i, id := "", wordCount := 1 })
      stats := none } 10 (by decide)
  obtain ⟨hlo, hhi⟩ := ceil_div_bounds 25 10 (by decide)
  have hT : (sentimentAPI.getAnalysisHistory
      { history := (List.range 25).map (fun i =>
          { text := "ok".toList, polarity := 0, sentiment := "neutral", subjectivity := 2 / 10,
            timestamp := i, id := "", wordCount := 1 })
        stats := none } 1 10).pagination.totalPages = 3 := by
    show ⌈(((List.range 25).map (fun i =>
      ({ text := "ok".toList, polarity := 0, sentiment := "neutral", subjectivity := 2 / 10,
         timestamp := i, id := "", wordCount := 1 } : AnalysisResult))).length : ℚ)
        / ((10 : Int) : ℚ)⌉ = 3
    rw [List.length_map, List.length_range]
    omega
  rw [hT] at hcat hfull hempty
  exact ⟨by decide, hT, hcat, hfull 2 (by decide) (by decide), hempty 4 (by decide)⟩

end SentimentDashboard
